import Mathlib

/-!
# CnsUnregisterVolume reconciler

A shallow embedding of
`pkg/syncer/cnsoperator/controller/cnsunregistervolume/cnsunregistervolume_controller.go`.

The Go code talks to the orchestration API through client objects.  Here the
API is an explicit `World`: three object stores (declared resources, claims,
volumes), the process-wide `backOffDuration` map, a fault oracle, the
chronological trace of API calls and the list of recorded events.  Every
function of the controller becomes a function that takes the world and
returns its Go results together with the new world.

The API follows the contract the controller relies on: a get returns the
stored object or not-found, an update replaces the stored object or returns
not-found, a delete removes the object or returns not-found.  On top of that
the fault oracle can make the `n`-th API call fail with any error (transport
error, conflict, not-found), in which case the call leaves the stores alone.
A statement about every `World` is therefore a statement about every store
content, every back-off map and every pattern of API failures.

Layout: the model of the reconciler, the derived notions used to state
properties, the model of the StorageClass admission check, then lemmas, then
the claims.
-/

namespace UnregisterVolume

/-! ## Durations -/

/-- Go `time.Duration`: a signed 64-bit count of nanoseconds. -/
abbrev Duration := Int

/-- Go `time.Second`. -/
def Second : Duration := 1000000000

/-- Two's-complement wrap-around of a mathematical integer into int64. -/
def wrapInt64 (x : Int) : Int := (x + 2 ^ 63) % 2 ^ 64 - 2 ^ 63

/-! ## Errors -/

/-- A Go `error` value as the controller can tell them apart: the API status
reasons that `apierrors.IsNotFound` and `errors.IsConflict` recognise, and
every other error.  Each carries its message. -/
inductive GoError where
  | notFound (msg : String)
  | conflict (msg : String)
  | other (msg : String)
deriving DecidableEq, Repr

/-- Go `err.Error()`. -/
def GoError.Error : GoError → String
  | .notFound msg => msg
  | .conflict msg => msg
  | .other msg => msg

/-- Go `apierrors.IsNotFound`. -/
def IsNotFound : GoError → Bool
  | .notFound _ => true
  | _ => false

/-- Go `errors.IsConflict`, the predicate used by `retry.RetryOnConflict`. -/
def IsConflict : GoError → Bool
  | .conflict _ => true
  | _ => false

/-! ## Objects -/

/-- Modelled from the spec: the `spec` of the declared resource
(`v1alpha1.CnsUnregisterVolumeSpec`, declared outside the controller file):
`spec.pvcName: string`. -/
structure CnsUnregisterVolumeSpec where
  PvcName : String
deriving DecidableEq, Repr

/-- Modelled from the spec: the `status` of the declared resource
(`v1alpha1.CnsUnregisterVolumeStatus`): `status.unregistered: bool`,
`status.error: string`. -/
structure CnsUnregisterVolumeStatus where
  Unregistered : Bool
  Error : String
deriving DecidableEq, Repr

/-- Modelled from the spec: the declared resource
(`v1alpha1.CnsUnregisterVolume`), identified by namespace and name. -/
structure CnsUnregisterVolume where
  Namespace : String
  Name : String
  Spec : CnsUnregisterVolumeSpec
  Status : CnsUnregisterVolumeStatus
deriving DecidableEq, Repr

/-- Go `types.NamespacedName`, the payload of a `reconcile.Request`. -/
structure NamespacedName where
  Namespace : String
  Name : String
deriving DecidableEq, Repr

/-- Go `v1.PersistentVolumeReclaimPolicy`. -/
inductive ReclaimPolicy where
  | Recycle
  | Delete
  | Retain
deriving DecidableEq, Repr

/-- The part of a `v1.PersistentVolumeClaim` the controller reads:
`pvc.Spec.VolumeName`. -/
structure PersistentVolumeClaim where
  Namespace : String
  Name : String
  VolumeName : String
deriving DecidableEq, Repr

/-- The part of a `v1.PersistentVolume` the controller reads and writes:
`pv.Spec.PersistentVolumeReclaimPolicy`. -/
structure PersistentVolume where
  Name : String
  PersistentVolumeReclaimPolicy : ReclaimPolicy
deriving DecidableEq, Repr

/-- Go `reconcile.Result`. -/
structure Result where
  Requeue : Bool
  RequeueAfter : Duration
deriving DecidableEq, Repr

/-- Go `reconcile.Result{}`. -/
def Result.empty : Result := ⟨false, 0⟩

/-! ## The API and the world -/

/-- One call to the orchestration API. -/
inductive Call where
  | getInstance (key : NamespacedName)
  | updateInstance (inst : CnsUnregisterVolume)
  | newClient
  | getClaim (ns name : String)
  | getVolume (name : String)
  | updateVolume (pv : PersistentVolume)
  | deleteClaim (ns name : String)
  | deleteVolume (name : String)
deriving DecidableEq, Repr

/-- A trace entry: the call and the error it returned (`none` is success). -/
structure Entry where
  call : Call
  err : Option GoError
deriving DecidableEq, Repr

/-- An event handed to the event recorder. -/
structure Event where
  object : CnsUnregisterVolume
  eventtype : String
  reason : String
  msg : String
deriving DecidableEq, Repr

/-- Go `v1.EventTypeWarning`. -/
def EventTypeWarning : String := "Warning"

/-- Go `v1.EventTypeNormal`. -/
def EventTypeNormal : String := "Normal"

/-- Everything a reconciliation can read or write.

* `instances`, `claims`, `volumes`: the API object stores.  A store maps the
  key of an object to the rest of it, so an object read from a store always
  carries the key it was asked for.
* `backOffDuration`: the package-level Go map of that name.
* `faults n`: the error injected into the `n`-th API call of the trace, if
  any.  A call with an injected error has no effect on the stores.
* `trace`: the API calls issued so far, oldest first.
* `events`: the events recorded so far, oldest first. -/
structure World where
  instances : String × String → Option (CnsUnregisterVolumeSpec × CnsUnregisterVolumeStatus)
  claims : String × String → Option String
  volumes : String → Option ReclaimPolicy
  backOffDuration : String → Option Duration
  faults : Nat → Option GoError
  trace : List Entry
  events : List Event

/-- The error injected into the next API call. -/
def World.fault (w : World) : Option GoError := w.faults w.trace.length

/-- Append a call and its outcome to the trace. -/
def World.record (w : World) (c : Call) (e : Option GoError) : World :=
  { w with trace := w.trace ++ [⟨c, e⟩] }

/-- Go `backOffDuration[key] = d`. -/
def World.setBackOff (w : World) (key : String) (d : Duration) : World :=
  { w with backOffDuration := fun k => if k = key then some d else w.backOffDuration k }

/-- Go `delete(backOffDuration, key)`. -/
def World.deleteBackOff (w : World) (key : String) : World :=
  { w with backOffDuration := fun k => if k = key then none else w.backOffDuration k }

/-- Go `backOffDuration[key]` as an rvalue: the zero duration for a missing key. -/
def World.getBackOff (w : World) (key : String) : Duration :=
  (w.backOffDuration key).getD 0

/-- Message of the not-found error the API returns for a missing object. -/
def notFoundMsg : String := "not found"

/-- `r.client.Get(ctx, key, instance)`. -/
def clientGet (w : World) (key : NamespacedName) : Except GoError CnsUnregisterVolume × World :=
  match w.fault with
  | some e => (.error e, w.record (.getInstance key) (some e))
  | none =>
    match w.instances (key.Namespace, key.Name) with
    | none =>
      (.error (.notFound notFoundMsg), w.record (.getInstance key) (some (.notFound notFoundMsg)))
    | some (spec, status) =>
      (.ok ⟨key.Namespace, key.Name, spec, status⟩, w.record (.getInstance key) none)

/-- `client.Update(ctx, instance)`. -/
def clientUpdate (w : World) (inst : CnsUnregisterVolume) : Option GoError × World :=
  match w.fault with
  | some e => (some e, w.record (.updateInstance inst) (some e))
  | none =>
    match w.instances (inst.Namespace, inst.Name) with
    | none =>
      (some (.notFound notFoundMsg),
        w.record (.updateInstance inst) (some (.notFound notFoundMsg)))
    | some _ =>
      (none,
        { w.record (.updateInstance inst) none with
          instances := fun k =>
            if k = (inst.Namespace, inst.Name) then some (inst.Spec, inst.Status)
            else w.instances k })

/-- Modelled from the spec: `k8s.NewClient(ctx)` (package `pkg/kubernetes`, outside the
controller file), the construction of the orchestration API client, which
either succeeds or fails with an error. -/
def NewClient (w : World) : Option GoError × World :=
  match w.fault with
  | some e => (some e, w.record .newClient (some e))
  | none => (none, w.record .newClient none)

/-- `k8sclient.CoreV1().PersistentVolumeClaims(ns).Get(ctx, name, ...)`. -/
def getClaim (w : World) (ns name : String) : Except GoError PersistentVolumeClaim × World :=
  match w.fault with
  | some e => (.error e, w.record (.getClaim ns name) (some e))
  | none =>
    match w.claims (ns, name) with
    | none =>
      (.error (.notFound notFoundMsg), w.record (.getClaim ns name) (some (.notFound notFoundMsg)))
    | some volumeName => (.ok ⟨ns, name, volumeName⟩, w.record (.getClaim ns name) none)

/-- `k8sclient.CoreV1().PersistentVolumes().Get(ctx, name, ...)`. -/
def getVolume (w : World) (name : String) : Except GoError PersistentVolume × World :=
  match w.fault with
  | some e => (.error e, w.record (.getVolume name) (some e))
  | none =>
    match w.volumes name with
    | none =>
      (.error (.notFound notFoundMsg), w.record (.getVolume name) (some (.notFound notFoundMsg)))
    | some policy => (.ok ⟨name, policy⟩, w.record (.getVolume name) none)

/-- `k8sclient.CoreV1().PersistentVolumes().Update(ctx, pv, ...)`. -/
def updateVolume (w : World) (pv : PersistentVolume) : Option GoError × World :=
  match w.fault with
  | some e => (some e, w.record (.updateVolume pv) (some e))
  | none =>
    match w.volumes pv.Name with
    | none =>
      (some (.notFound notFoundMsg), w.record (.updateVolume pv) (some (.notFound notFoundMsg)))
    | some _ =>
      (none,
        { w.record (.updateVolume pv) none with
          volumes := fun k =>
            if k = pv.Name then some pv.PersistentVolumeReclaimPolicy else w.volumes k })

/-- `k8sclient.CoreV1().PersistentVolumeClaims(ns).Delete(ctx, name, ...)`. -/
def deleteClaim (w : World) (ns name : String) : Option GoError × World :=
  match w.fault with
  | some e => (some e, w.record (.deleteClaim ns name) (some e))
  | none =>
    match w.claims (ns, name) with
    | none =>
      (some (.notFound notFoundMsg), w.record (.deleteClaim ns name) (some (.notFound notFoundMsg)))
    | some _ =>
      (none,
        { w.record (.deleteClaim ns name) none with
          claims := fun k => if k = (ns, name) then none else w.claims k })

/-- `k8sclient.CoreV1().PersistentVolumes().Delete(ctx, name, ...)`. -/
def deleteVolume (w : World) (name : String) : Option GoError × World :=
  match w.fault with
  | some e => (some e, w.record (.deleteVolume name) (some e))
  | none =>
    match w.volumes name with
    | none =>
      (some (.notFound notFoundMsg), w.record (.deleteVolume name) (some (.notFound notFoundMsg)))
    | some _ =>
      (none,
        { w.record (.deleteVolume name) none with
          volumes := fun k => if k = name then none else w.volumes k })

/-- `retry.DefaultRetry.Steps`. -/
def DefaultRetrySteps : Nat := 5

/-- `retry.OnError`: call `fn` until it succeeds, fails with an error that is
not retriable, or `steps` calls have been made; in the last case the last
retriable error is returned. -/
def OnError (retriable : GoError → Bool) (fn : World → Option GoError × World) :
    Nat → Option GoError → World → Option GoError × World
  | 0, lastErr, w => (lastErr, w)
  | steps + 1, _, w =>
    match fn w with
    | (none, w1) => (none, w1)
    | (some err, w1) =>
      if retriable err then OnError retriable fn steps (some err) w1 else (some err, w1)

/-- `retry.RetryOnConflict(retry.DefaultRetry, fn)`. -/
def RetryOnConflict (fn : World → Option GoError × World) (w : World) : Option GoError × World :=
  OnError IsConflict fn DefaultRetrySteps none w

/-! ## The controller -/

/-- `updateCnsUnregisterVolume`. -/
def updateCnsUnregisterVolume (w : World) (inst : CnsUnregisterVolume) :
    Option GoError × World :=
  clientUpdate w inst

/-- `recordEvent`: doubles the back-off of the instance name on a warning,
resets it to one second on a normal event, and records the event. -/
def recordEvent (w : World) (inst : CnsUnregisterVolume) (eventtype msg : String) : World :=
  if eventtype = EventTypeWarning then
    let w1 := w.setBackOff inst.Name (wrapInt64 (w.getBackOff inst.Name * 2))
    { w1 with events := w1.events ++ [⟨inst, EventTypeWarning, "CnsUnregisterVolumeFailed", msg⟩] }
  else if eventtype = EventTypeNormal then
    let w1 := w.setBackOff inst.Name Second
    { w1 with
      events := w1.events ++ [⟨inst, EventTypeNormal, "CnsUnregisterVolumeSucceeded", msg⟩] }
  else w

/-- `validateCnsUnregisterVolumeSpec`. -/
def validateCnsUnregisterVolumeSpec (inst : CnsUnregisterVolume) : Option GoError :=
  let msg := if inst.Spec.PvcName = "" then "Pvc name not specified in the spec" else ""
  if msg ≠ "" then some (.other msg) else none

/-- `setInstanceError`.  The instance is a pointer in Go, so the mutated
instance is returned with the world. -/
def setInstanceError (w : World) (inst : CnsUnregisterVolume) (errMsg : String) :
    CnsUnregisterVolume × World :=
  let inst1 := { inst with Status := { inst.Status with Error := errMsg } }
  let (_, w1) := updateCnsUnregisterVolume w inst1
  (inst1, recordEvent w1 inst1 EventTypeWarning errMsg)

/-- `setInstanceSuccess`. -/
def setInstanceSuccess (w : World) (inst : CnsUnregisterVolume) (msg : String) :
    Option GoError × CnsUnregisterVolume × World :=
  let inst1 := { inst with Status := { Unregistered := true, Error := "" } }
  match updateCnsUnregisterVolume w inst1 with
  | (some err, w1) => (some err, inst1, w1)
  | (none, w1) => (none, inst1, recordEvent w1 inst1 EventTypeNormal msg)

/-- The end of `Reconcile` (source lines 249-262): update the instance to
indicate that the volume unregistration is successful. -/
def reconcileEnd (w8 : World) (inst : CnsUnregisterVolume) (timeout : Duration) :
    (Result × Option GoError) × World :=
  let msg := "Successfully unregistered the volume on namespace: " ++ inst.Namespace
  match setInstanceSuccess w8 inst msg with
  | (some err, inst1, w9) =>
    let msg := "Failed to update CnsUnregistered instance with error: " ++ err.Error
    let (_, w10) := setInstanceError w9 inst1 msg
    ((⟨false, timeout⟩, none), w10)
  | (none, inst1, w9) =>
    ((Result.empty, none), w9.deleteBackOff inst1.Name)

/-- The rest of `Reconcile` after the claim delete (source lines 239-262):
delete the volume, then mark success.  Both the successful claim delete and
the not-found claim delete fall through to this code. -/
def reconcileTail (w7 : World) (inst : CnsUnregisterVolume) (pvName : String)
    (timeout : Duration) : (Result × Option GoError) × World :=
  match deleteVolume w7 pvName with
  | (some err, w8) =>
    if !IsNotFound err then ((Result.empty, some err), w8)
    else reconcileEnd w8 inst timeout
  | (none, w8) => reconcileEnd w8 inst timeout

/-- `ReconcileCnsUnregisterVolume.Reconcile`. -/
def Reconcile (w : World) (request : NamespacedName) : (Result × Option GoError) × World :=
  match clientGet w request with
  | (.error err, w1) =>
    if IsNotFound err then ((Result.empty, none), w1)
    else ((Result.empty, some err), w1)
  | (.ok inst, w1) =>
    -- Initialize backOffDuration for the instance, if required.
    let w2 := if (w1.backOffDuration inst.Name).isNone then w1.setBackOff inst.Name Second
      else w1
    let timeout := w2.getBackOff inst.Name
    if inst.Status.Unregistered then
      ((Result.empty, none), w2.deleteBackOff inst.Name)
    else
      match validateCnsUnregisterVolumeSpec inst with
      | some err =>
        let (_, w3) := setInstanceError w2 inst err.Error
        ((⟨false, timeout⟩, none), w3)
      | none =>
        match NewClient w2 with
        | (some _, w3) =>
          let (_, w4) := setInstanceError w3 inst
            "Failed to init K8S client for volume unregistration"
          ((⟨false, timeout⟩, none), w4)
        | (none, w3) =>
          match getClaim w3 inst.Namespace inst.Spec.PvcName with
          | (.error err, w4) => ((Result.empty, some err), w4)
          | (.ok pvc, w4) =>
            let pvName := pvc.VolumeName
            match getVolume w4 pvName with
            | (.error err, w5) => ((Result.empty, some err), w5)
            | (.ok pv, w5) =>
              -- `err` is the error variable of the volume Get above, nil here.
              let err : Option GoError := none
              let pv1 := { pv with PersistentVolumeReclaimPolicy := ReclaimPolicy.Retain }
              match RetryOnConflict (fun w => updateVolume w pv1) w5 with
              | (some _, w6) => ((Result.empty, err), w6)
              | (none, w6) =>
                match deleteClaim w6 inst.Namespace inst.Spec.PvcName with
                | (some err, w7) =>
                  if !IsNotFound err then ((Result.empty, some err), w7)
                  else reconcileTail w7 inst pvName timeout
                | (none, w7) => reconcileTail w7 inst pvName timeout

/-! ## Paths of one reconciliation -/

/-- The back-off map after `Reconcile` has seeded the entry of `name`. -/
def seeded (w : World) (name : String) : String → Option Duration :=
  fun k => if k = name then some ((w.backOffDuration name).getD Second) else w.backOffDuration k

/-- The back-off map after a warning event for `name` following the seeding. -/
def doubled (w : World) (name : String) : String → Option Duration :=
  fun k =>
    if k = name then some (wrapInt64 ((w.backOffDuration name).getD Second * 2))
    else w.backOffDuration k

/-- The back-off map after the entry of `name` has been deleted. -/
def forgotten (w : World) (name : String) : String → Option Duration :=
  fun k => if k = name then none else w.backOffDuration k

/-- A delete outcome that `Reconcile` tolerates: success or not-found. -/
def Tolerated (e : Option GoError) : Bool :=
  match e with
  | none => true
  | some x => IsNotFound x

/-- The warning event recorded by `setInstanceError`. -/
def warningEvent (inst : CnsUnregisterVolume) (msg : String) : Event :=
  ⟨{ inst with Status := { inst.Status with Error := msg } }, EventTypeWarning,
    "CnsUnregisterVolumeFailed", msg⟩

/-- The four calls that open every execution that reaches the retain update. -/
def opening (request : NamespacedName) (pvcName pvName : String) : List Entry :=
  [⟨.getInstance request, none⟩, ⟨.newClient, none⟩,
   ⟨.getClaim request.Namespace pvcName, none⟩, ⟨.getVolume pvName, none⟩]

/-- The execution paths of `Reconcile w request`: for each path the Go result,
the final world and the API calls issued, oldest first. -/
inductive Path (w : World) (request : NamespacedName) :
    Result × Option GoError → World → List Entry → Prop where
  | instanceGone (err : GoError) (w1 : World) :
      IsNotFound err = true → w1.backOffDuration = w.backOffDuration → w1.events = w.events →
      w1.instances = w.instances → w1.claims = w.claims → w1.volumes = w.volumes →
      Path w request (Result.empty, none) w1 [⟨.getInstance request, some err⟩]
  | instanceGetFailed (err : GoError) (w1 : World) :
      IsNotFound err = false → w1.backOffDuration = w.backOffDuration → w1.events = w.events →
      w1.instances = w.instances →
      Path w request (Result.empty, some err) w1 [⟨.getInstance request, some err⟩]
  | unregistered (inst : CnsUnregisterVolume) (w1 : World) :
      w.instances (request.Namespace, request.Name) = some (inst.Spec, inst.Status) →
      inst.Status.Unregistered = true →
      w1.backOffDuration = forgotten w request.Name → w1.events = w.events →
      w1.instances = w.instances → w1.claims = w.claims → w1.volumes = w.volumes →
      Path w request (Result.empty, none) w1 [⟨.getInstance request, none⟩]
  | invalid (inst : CnsUnregisterVolume) (e : Option GoError) (w1 : World) :
      w.instances (request.Namespace, request.Name) = some (inst.Spec, inst.Status) →
      inst.Namespace = request.Namespace → inst.Name = request.Name →
      inst.Status.Unregistered = false → inst.Spec.PvcName = "" →
      w1.backOffDuration = doubled w request.Name →
      w1.events = w.events ++ [warningEvent inst "Pvc name not specified in the spec"] →
      w1.instances = (fun k =>
        if k = (request.Namespace, request.Name) ∧ e = none then
          some (inst.Spec, ⟨false, "Pvc name not specified in the spec"⟩)
        else w.instances k) →
      w1.claims = w.claims → w1.volumes = w.volumes →
      Path w request (⟨false, (w.backOffDuration request.Name).getD Second⟩, none) w1
        [⟨.getInstance request, none⟩,
         ⟨.updateInstance
            { inst with Status := { inst.Status with Error := "Pvc name not specified in the spec" } },
          e⟩]
  | newClientFailed (inst : CnsUnregisterVolume) (err : GoError) (e : Option GoError)
      (w1 : World) :
      inst.Namespace = request.Namespace → inst.Name = request.Name →
      inst.Status.Unregistered = false → inst.Spec.PvcName ≠ "" →
      w1.backOffDuration = doubled w request.Name →
      w1.events = w.events ++
        [warningEvent inst "Failed to init K8S client for volume unregistration"] →
      w.instances (request.Namespace, request.Name) = some (inst.Spec, inst.Status) →
      w1.instances = (fun k =>
        if k = (request.Namespace, request.Name) ∧ e = none then
          some (inst.Spec, ⟨false, "Failed to init K8S client for volume unregistration"⟩)
        else w.instances k) →
      Path w request (⟨false, (w.backOffDuration request.Name).getD Second⟩, none) w1
        [⟨.getInstance request, none⟩, ⟨.newClient, some err⟩,
         ⟨.updateInstance
            { inst with
              Status := { inst.Status with
                Error := "Failed to init K8S client for volume unregistration" } },
          e⟩]
  | getClaimFailed (inst : CnsUnregisterVolume) (err : GoError) (w1 : World) :
      inst.Status.Unregistered = false → inst.Spec.PvcName ≠ "" →
      w1.backOffDuration = seeded w request.Name → w1.events = w.events →
      w1.instances = w.instances →
      Path w request (Result.empty, some err) w1
        [⟨.getInstance request, none⟩, ⟨.newClient, none⟩,
         ⟨.getClaim request.Namespace inst.Spec.PvcName, some err⟩]
  | getVolumeFailed (inst : CnsUnregisterVolume) (pvName : String) (err : GoError)
      (w1 : World) :
      inst.Status.Unregistered = false → inst.Spec.PvcName ≠ "" →
      w.claims (request.Namespace, inst.Spec.PvcName) = some pvName →
      w1.backOffDuration = seeded w request.Name → w1.events = w.events →
      w1.instances = w.instances →
      Path w request (Result.empty, some err) w1
        [⟨.getInstance request, none⟩, ⟨.newClient, none⟩,
         ⟨.getClaim request.Namespace inst.Spec.PvcName, none⟩,
         ⟨.getVolume pvName, some err⟩]
  | retainFailed (inst : CnsUnregisterVolume) (pvName : String) (ups : List Entry)
      (err : GoError) (w1 : World) :
      inst.Status.Unregistered = false → inst.Spec.PvcName ≠ "" →
      w.claims (request.Namespace, inst.Spec.PvcName) = some pvName →
      (∀ e ∈ ups, e.call = .updateVolume ⟨pvName, .Retain⟩) →
      w1.backOffDuration = seeded w request.Name → w1.events = w.events →
      w1.instances = w.instances →
      Path w request (Result.empty, none) w1
        (opening request inst.Spec.PvcName pvName ++ ups ++
          [⟨.updateVolume ⟨pvName, .Retain⟩, some err⟩])
  | deleteClaimFailed (inst : CnsUnregisterVolume) (pvName : String) (ups : List Entry)
      (err : GoError) (w1 : World) :
      inst.Status.Unregistered = false → inst.Spec.PvcName ≠ "" →
      w.claims (request.Namespace, inst.Spec.PvcName) = some pvName →
      (∀ e ∈ ups, e.call = .updateVolume ⟨pvName, .Retain⟩) →
      IsNotFound err = false →
      w1.backOffDuration = seeded w request.Name → w1.events = w.events →
      w1.instances = w.instances →
      Path w request (Result.empty, some err) w1
        (opening request inst.Spec.PvcName pvName ++ ups ++
          [⟨.updateVolume ⟨pvName, .Retain⟩, none⟩,
           ⟨.deleteClaim request.Namespace inst.Spec.PvcName, some err⟩])
  | deleteVolumeFailed (inst : CnsUnregisterVolume) (pvName : String) (ups : List Entry)
      (e1 : Option GoError) (err : GoError) (w1 : World) :
      inst.Status.Unregistered = false → inst.Spec.PvcName ≠ "" →
      w.claims (request.Namespace, inst.Spec.PvcName) = some pvName →
      (∀ e ∈ ups, e.call = .updateVolume ⟨pvName, .Retain⟩) →
      Tolerated e1 → IsNotFound err = false →
      w1.backOffDuration = seeded w request.Name → w1.events = w.events →
      w1.instances = w.instances →
      Path w request (Result.empty, some err) w1
        (opening request inst.Spec.PvcName pvName ++ ups ++
          [⟨.updateVolume ⟨pvName, .Retain⟩, none⟩,
           ⟨.deleteClaim request.Namespace inst.Spec.PvcName, e1⟩,
           ⟨.deleteVolume pvName, some err⟩])
  | statusUpdateFailed (inst : CnsUnregisterVolume) (pvName : String) (ups : List Entry)
      (e1 e2 : Option GoError) (err : GoError) (e : Option GoError) (w1 : World) :
      inst.Namespace = request.Namespace → inst.Name = request.Name →
      inst.Status.Unregistered = false → inst.Spec.PvcName ≠ "" →
      w.claims (request.Namespace, inst.Spec.PvcName) = some pvName →
      (∀ e ∈ ups, e.call = .updateVolume ⟨pvName, .Retain⟩) →
      Tolerated e1 → Tolerated e2 →
      w1.backOffDuration = doubled w request.Name →
      w.instances (request.Namespace, request.Name) = some (inst.Spec, inst.Status) →
      w1.instances = (fun k =>
        if k = (request.Namespace, request.Name) ∧ e = none then
          some (inst.Spec,
            ⟨true, "Failed to update CnsUnregistered instance with error: " ++ err.Error⟩)
        else w.instances k) →
      Path w request (⟨false, (w.backOffDuration request.Name).getD Second⟩, none) w1
        (opening request inst.Spec.PvcName pvName ++ ups ++
          [⟨.updateVolume ⟨pvName, .Retain⟩, none⟩,
           ⟨.deleteClaim request.Namespace inst.Spec.PvcName, e1⟩,
           ⟨.deleteVolume pvName, e2⟩,
           ⟨.updateInstance { inst with Status := ⟨true, ""⟩ }, some err⟩,
           ⟨.updateInstance
              { inst with
                Status := ⟨true,
                  "Failed to update CnsUnregistered instance with error: " ++ err.Error⟩ },
            e⟩])
  | succeeded (inst : CnsUnregisterVolume) (pvName : String) (ups : List Entry)
      (e1 e2 : Option GoError) (w1 : World) :
      inst.Namespace = request.Namespace → inst.Name = request.Name →
      inst.Status.Unregistered = false → inst.Spec.PvcName ≠ "" →
      w.claims (request.Namespace, inst.Spec.PvcName) = some pvName →
      (∀ e ∈ ups, e.call = .updateVolume ⟨pvName, .Retain⟩) →
      Tolerated e1 → Tolerated e2 →
      w1.backOffDuration = forgotten w request.Name →
      w1.instances (request.Namespace, request.Name) = some (inst.Spec, ⟨true, ""⟩) →
      w.instances (request.Namespace, request.Name) = some (inst.Spec, inst.Status) →
      Path w request (Result.empty, none) w1
        (opening request inst.Spec.PvcName pvName ++ ups ++
          [⟨.updateVolume ⟨pvName, .Retain⟩, none⟩,
           ⟨.deleteClaim request.Namespace inst.Spec.PvcName, e1⟩,
           ⟨.deleteVolume pvName, e2⟩,
           ⟨.updateInstance { inst with Status := ⟨true, ""⟩ }, none⟩])

/-- The outcomes of the rest of `Reconcile` after the claim delete, started in
world `w`: the volume delete fails, the success status update fails, or both
succeed. -/
def TailOutcome (w : World) (inst : CnsUnregisterVolume) (pvName : String)
    (timeout : Duration) (r : (Result × Option GoError) × World) : Prop :=
  (∃ err, IsNotFound err = false ∧ r.1 = (Result.empty, some err) ∧
    r.2.trace = w.trace ++ [⟨.deleteVolume pvName, some err⟩] ∧
    r.2.backOffDuration = w.backOffDuration ∧ r.2.events = w.events ∧
    r.2.instances = w.instances) ∨
  (∃ e2 err e, Tolerated e2 ∧ r.1 = (⟨false, timeout⟩, none) ∧
    r.2.trace = w.trace ++
      [⟨.deleteVolume pvName, e2⟩,
       ⟨.updateInstance { inst with Status := ⟨true, ""⟩ }, some err⟩,
       ⟨.updateInstance
          { inst with
            Status := ⟨true,
              "Failed to update CnsUnregistered instance with error: " ++ err.Error⟩ },
        e⟩] ∧
    r.2.backOffDuration = (fun k =>
      if k = inst.Name then some (wrapInt64 (w.getBackOff inst.Name * 2))
      else w.backOffDuration k) ∧
    r.2.instances = (fun k =>
      if k = (inst.Namespace, inst.Name) ∧ e = none then
        some (inst.Spec,
          ⟨true, "Failed to update CnsUnregistered instance with error: " ++ err.Error⟩)
      else w.instances k)) ∨
  (∃ e2, Tolerated e2 ∧ r.1 = (Result.empty, none) ∧
    r.2.trace = w.trace ++
      [⟨.deleteVolume pvName, e2⟩,
       ⟨.updateInstance { inst with Status := ⟨true, ""⟩ }, none⟩] ∧
    r.2.backOffDuration = (fun k => if k = inst.Name then none else w.backOffDuration k) ∧
    r.2.instances (inst.Namespace, inst.Name) = some (inst.Spec, ⟨true, ""⟩))

/-! ## Predicates on calls and repeated reconciliation -/

/-- The call deletes a claim or a volume. -/
def Call.isDelete : Call → Bool
  | .deleteClaim _ _ => true
  | .deleteVolume _ => true
  | _ => false

/-- A failure of one of the workflow calls on the claim or the volume whose
error `Reconcile` hands back to its caller: fetching the claim, fetching the
volume, and a claim or volume delete with an error other than not-found. -/
def isStepFailure (c : Call) (err : GoError) : Bool :=
  match c with
  | .getClaim _ _ => true
  | .getVolume _ => true
  | .deleteClaim _ _ => !IsNotFound err
  | .deleteVolume _ => !IsNotFound err
  | _ => false

/-- The world after `n` consecutive reconciliations of the same request. -/
def reconcileN (request : NamespacedName) : Nat → World → World
  | 0, w => w
  | n + 1, w => reconcileN request n (Reconcile w request).2

/-- The attempt started in `w` fails validation: the resource is read, it is
not unregistered, and `validateCnsUnregisterVolumeSpec` returns an error. -/
def failsValidation (w : World) (request : NamespacedName) : Bool :=
  match (clientGet w request).1 with
  | .ok inst => !inst.Status.Unregistered && (validateCnsUnregisterVolumeSpec inst).isSome
  | .error _ => false

/-- Each of the `n` consecutive attempts started in `w` fails validation. -/
def validationFailures (request : NamespacedName) : Nat → World → Bool
  | 0, _ => true
  | n + 1, w => failsValidation w request && validationFailures request n (Reconcile w request).2

/-! ## Concrete scenarios -/

/-- The resource key of the example scenario: `team-a/vol1`. -/
def exampleKey : NamespacedName := ⟨"team-a", "vol1"⟩

/-- The example scenario: resource `team-a/vol1` with `spec.pvcName = pvc1`,
claim `pvc1` bound to volume `pv-123`, an empty back-off map and no faults. -/
def exampleWorld : World where
  instances := fun k => if k = ("team-a", "vol1") then some (⟨"pvc1"⟩, ⟨false, ""⟩) else none
  claims := fun k => if k = ("team-a", "pvc1") then some "pv-123" else none
  volumes := fun k => if k = "pv-123" then some .Delete else none
  backOffDuration := fun _ => none
  faults := fun _ => none
  trace := []
  events := []

/-- The example scenario without the claim `pvc1`: fetching the claim fails. -/
def claimMissingWorld : World :=
  { exampleWorld with claims := fun _ => none }

/-- The example scenario in which every API call from the retain update on
(call number 4) fails with a conflict. -/
def conflictWorld : World :=
  { exampleWorld with faults := fun i => if 4 ≤ i then some (.conflict "conflict") else none }

/-- The world in which a second, fault-free attempt starts after a first
attempt on the example scenario in which every API call from call number `k`
on failed: `k = 5` stops the first attempt after the retain update, `k = 6`
after the claim delete, `k = 7` after the volume delete. -/
def interruptedWorld (k : Nat) : World :=
  { (Reconcile
      { exampleWorld with faults := fun i => if k ≤ i then some (.other "interrupted") else none }
      exampleKey).2 with
    faults := fun _ => none }

/-- Two resources with the same name `vol1` in the namespaces `team-a` and
`team-b`, both with an empty `spec.pvcName`. -/
def invalidWorld : World where
  instances := fun k =>
    if k = ("team-a", "vol1") then some (⟨""⟩, ⟨false, ""⟩)
    else if k = ("team-b", "vol1") then some (⟨""⟩, ⟨false, ""⟩)
    else none
  claims := fun _ => none
  volumes := fun _ => none
  backOffDuration := fun _ => none
  faults := fun _ => none
  trace := []
  events := []

/-! ## Scenarios with not-found deletes and a failing status update -/

/-- The example scenario in which the claim delete (call number 5) and the
volume delete (call number 6) both return not-found. -/
def notFoundDeleteWorld : World :=
  { exampleWorld with
    faults := fun i => if i = 5 ∨ i = 6 then some (.notFound notFoundMsg) else none }

/-- The example scenario in which the status update that marks success (call
number 7) fails once and every other call succeeds. -/
def statusUpdateFailsWorld : World :=
  { exampleWorld with faults := fun i => if i = 7 then some (.other "timeout") else none }

/-- The entry with a delete that returned not-found read as a delete that
succeeded; every other entry is left as it is. -/
def asSuccessfulDelete (e : Entry) : Entry :=
  if e.call.isDelete && Tolerated e.err then ⟨e.call, none⟩ else e

/-- What an execution of `Reconcile` ends with, read off its last call: the Go
result, the resource stored under the key and the delay stored under the name.
`d` and `i0` are the stored delay and the stored resource on entry. -/
def outcomeOfLast (d : Option Duration)
    (i0 : Option (CnsUnregisterVolumeSpec × CnsUnregisterVolumeStatus)) :
    Option Entry →
      (Result × Option GoError) ×
        Option (CnsUnregisterVolumeSpec × CnsUnregisterVolumeStatus) × Option Duration
  | some ⟨.getInstance _, some err⟩ =>
    ((Result.empty, if IsNotFound err then none else some err), i0, d)
  | some ⟨.getInstance _, none⟩ => ((Result.empty, none), i0, none)
  | some ⟨.updateInstance inst, e⟩ =>
    if inst.Status = ⟨true, ""⟩ then ((Result.empty, none), some (inst.Spec, inst.Status), none)
    else
      ((⟨false, d.getD Second⟩, none), if e = none then some (inst.Spec, inst.Status) else i0,
        some (wrapInt64 (d.getD Second * 2)))
  | some ⟨.updateVolume _, _⟩ => ((Result.empty, none), i0, some (d.getD Second))
  | some ⟨_, e⟩ => ((Result.empty, e), i0, some (d.getD Second))
  | none => ((Result.empty, none), i0, d)

/-- The example scenario in which the first retain update (call number 4)
returns a conflict and the second succeeds, and then the claim delete (call
number 6) and the volume delete (call number 7) both return not-found. -/
def conflictThenNotFoundWorld : World :=
  { exampleWorld with
    faults := fun i =>
      if i = 4 then some (.conflict "conflict")
      else if i = 6 ∨ i = 7 then some (.notFound notFoundMsg)
      else none }

end UnregisterVolume

/-! # The StorageClass admission check

A shallow embedding of `validateStorageClass`
(`pkg/syncer/admissionhandler/validatestorageclass.go`) and of `parameterSet`
(`pkg/syncer/admissionhandler/admissionhandler.go`). -/

namespace AdmissionHandler

/-- Go `parameterSet`, a `map[string]struct{}`: the list of its keys. -/
structure parameterSet where
  keys : List String
deriving DecidableEq, Repr

/-- `parameterSet.Has`: checks if the specified `paramName` is present in the
set. -/
def parameterSet.Has (paramSet : parameterSet) (paramName : String) : Bool :=
  paramSet.keys.contains paramName

/-- The names of the migration parameters, constants of the package
`pkg/csi/service/common`, which is outside the admission handler files.  Their
values are a parameter of the model. -/
structure MigrationParamNames where
  CSIMigrationParams : String
  DiskFormatMigrationParam : String
  HostFailuresToTolerateMigrationParam : String
  ForceProvisioningMigrationParam : String
  CacheReservationMigrationParam : String
  DiskstripesMigrationParam : String
  ObjectspacereservationMigrationParam : String
  IopslimitMigrationParam : String
deriving DecidableEq, Repr

/-- `unSupportedParameters`. -/
def unSupportedParameters (common : MigrationParamNames) : parameterSet :=
  ⟨[common.CSIMigrationParams, common.DiskFormatMigrationParam,
    common.HostFailuresToTolerateMigrationParam, common.ForceProvisioningMigrationParam,
    common.CacheReservationMigrationParam, common.DiskstripesMigrationParam,
    common.ObjectspacereservationMigrationParam, common.IopslimitMigrationParam]⟩

/-- `volumeExpansionErrorMessage`. -/
def volumeExpansionErrorMessage : String :=
  "AllowVolumeExpansion can not be set to true on the in-tree vSphere StorageClass"

/-- `migrationParamErrorMessage`. -/
def migrationParamErrorMessage : String :=
  "Invalid StorageClass Parameters. Migration specific parameters should not be used in the StorageClass"

/-- The part of a `storagev1.StorageClass` that `validateStorageClass` reads.
`AllowVolumeExpansion` is a `*bool`; `Parameters` is a `map[string]string`,
given as its entries in the order the `range` loop visits them. -/
structure StorageClass where
  Name : String
  Provisioner : String
  AllowVolumeExpansion : Option Bool
  Parameters : List (String × String)
deriving DecidableEq, Repr

/-- Go `metav1.Status`, the two fields that are set here. -/
structure Status where
  Message : String
  Reason : String
deriving DecidableEq, Repr

/-- Go `admissionv1.AdmissionResponse`. -/
structure AdmissionResponse where
  Allowed : Bool
  Result : Option Status
deriving DecidableEq, Repr

/-- Go `admissionv1.AdmissionRequest`: `Kind.Kind` and the bytes `Object.Raw`. -/
structure AdmissionRequest where
  Kind : String
  Raw : String
deriving DecidableEq, Repr

/-- Go `admissionv1.AdmissionReview`; `Request` is a pointer. -/
structure AdmissionReview where
  Request : Option AdmissionRequest
deriving DecidableEq, Repr

/-- The `range sc.Parameters` loop of `validateStorageClass`, entered with
`allowed = true` and `result = nil`: the values of `allowed` and `result` when
the loop is left. -/
def migrationParamsLoop (unsupported : parameterSet) :
    List (String × String) → Bool × Option Status
  | [] => (true, none)
  | (param, _) :: rest =>
    if unsupported.Has param then (false, some ⟨"", migrationParamErrorMessage⟩)
    else migrationParamsLoop unsupported rest

/-- `validateStorageClass`.  `unmarshal` is `json.Unmarshal` into a
`StorageClass`; the result is `none` when `ar.Request` is nil, where the Go
code dereferences a nil pointer. -/
def validateStorageClass (common : MigrationParamNames)
    (unmarshal : String → Except String StorageClass) (ar : AdmissionReview) :
    Option AdmissionResponse :=
  match ar.Request with
  | none => none
  | some req =>
    if req.Kind = "StorageClass" then
      match unmarshal req.Raw with
      | .error err => some ⟨false, some ⟨err, ""⟩⟩
      | .ok sc =>
        -- AllowVolumeExpansion check for kubernetes.io/vsphere-volume provisioner
        let (allowed, result) : Bool × Option Status :=
          if sc.Provisioner = "kubernetes.io/vsphere-volume" ∧
              sc.AllowVolumeExpansion = some true then
            (false, some ⟨"", volumeExpansionErrorMessage⟩)
          else (true, none)
        -- Migration parameters check for csi.vsphere.vmware.com provisioner
        let (allowed, result) : Bool × Option Status :=
          if allowed = true ∧ sc.Provisioner = "csi.vsphere.vmware.com" then
            migrationParamsLoop (unSupportedParameters common) sc.Parameters
          else (allowed, result)
        some ⟨allowed, result⟩
    else some ⟨true, none⟩

/-- Example values for the migration parameter names. -/
def exampleParamNames : MigrationParamNames :=
  ⟨"csimigration", "diskformat-migrationparam", "hostfailurestotolerate-migrationparam",
    "forceprovisioning-migrationparam", "cachereservation-migrationparam",
    "diskstripes-migrationparam", "objectspacereservation-migrationparam",
    "iopslimit-migrationparam"⟩

/-- A storage class of the CSI provisioner that uses a migration parameter. -/
def exampleStorageClass : StorageClass :=
  ⟨"fast", "csi.vsphere.vmware.com", none,
    [("storagepolicyname", "gold"), ("diskformat-migrationparam", "thin")]⟩

/-- A storage class of the CSI provisioner without migration parameters. -/
def plainStorageClass : StorageClass :=
  ⟨"plain", "csi.vsphere.vmware.com", none, [("storagepolicyname", "gold")]⟩

/-- An admission request of kind `StorageClass`. -/
def exampleRequest : AdmissionRequest := ⟨"StorageClass", "raw"⟩

end AdmissionHandler

namespace UnregisterVolume

/-! # Lemmas -/

/-! ## Inversion lemmas for the API calls -/

theorem clientGet_error_inv {w w1 : World} {key : NamespacedName} {err : GoError}
    (h : clientGet w key = (.error err, w1)) :
    w1 = w.record (.getInstance key) (some err) := by
  unfold clientGet at h
  split at h
  · cases h; rfl
  · split at h
    · cases h; rfl
    · cases h

theorem clientGet_ok_inv {w w1 : World} {key : NamespacedName} {inst : CnsUnregisterVolume}
    (h : clientGet w key = (.ok inst, w1)) :
    w1 = w.record (.getInstance key) none ∧ inst.Namespace = key.Namespace ∧
      inst.Name = key.Name ∧
      w.instances (key.Namespace, key.Name) = some (inst.Spec, inst.Status) ∧
      w.fault = none := by
  unfold clientGet at h
  split at h
  · cases h
  · split at h
    · cases h
    · cases h; simp [*]

theorem clientUpdate_error_inv {w w1 : World} {inst : CnsUnregisterVolume} {err : GoError}
    (h : clientUpdate w inst = (some err, w1)) :
    w1 = w.record (.updateInstance inst) (some err) := by
  unfold clientUpdate at h
  split at h
  · cases h; rfl
  · split at h
    · cases h; rfl
    · cases h

theorem clientUpdate_ok_inv {w w1 : World} {inst : CnsUnregisterVolume}
    (h : clientUpdate w inst = (none, w1)) :
    w1 = { w.record (.updateInstance inst) none with
        instances := fun k =>
          if k = (inst.Namespace, inst.Name) then some (inst.Spec, inst.Status)
          else w.instances k } ∧
      w.fault = none := by
  unfold clientUpdate at h
  split at h
  · cases h
  · split at h
    · cases h
    · cases h; simp [*]

theorem NewClient_error_inv {w w1 : World} {err : GoError}
    (h : NewClient w = (some err, w1)) : w1 = w.record .newClient (some err) := by
  unfold NewClient at h
  split at h <;> cases h
  rfl

theorem NewClient_ok_inv {w w1 : World} (h : NewClient w = (none, w1)) :
    w1 = w.record .newClient none ∧ w.fault = none := by
  unfold NewClient at h
  split at h <;> cases h
  simp [*]

theorem getClaim_error_inv {w w1 : World} {ns name : String} {err : GoError}
    (h : getClaim w ns name = (.error err, w1)) :
    w1 = w.record (.getClaim ns name) (some err) := by
  unfold getClaim at h
  split at h
  · cases h; rfl
  · split at h
    · cases h; rfl
    · cases h

theorem getClaim_ok_inv {w w1 : World} {ns name : String} {pvc : PersistentVolumeClaim}
    (h : getClaim w ns name = (.ok pvc, w1)) :
    w1 = w.record (.getClaim ns name) none ∧ w.claims (ns, name) = some pvc.VolumeName ∧
      w.fault = none := by
  unfold getClaim at h
  split at h
  · cases h
  · split at h
    · cases h
    · cases h; simp [*]

theorem getVolume_error_inv {w w1 : World} {name : String} {err : GoError}
    (h : getVolume w name = (.error err, w1)) :
    w1 = w.record (.getVolume name) (some err) := by
  unfold getVolume at h
  split at h
  · cases h; rfl
  · split at h
    · cases h; rfl
    · cases h

theorem getVolume_ok_inv {w w1 : World} {name : String} {pv : PersistentVolume}
    (h : getVolume w name = (.ok pv, w1)) :
    w1 = w.record (.getVolume name) none ∧ pv.Name = name ∧
      w.volumes name = some pv.PersistentVolumeReclaimPolicy ∧ w.fault = none := by
  unfold getVolume at h
  split at h
  · cases h
  · split at h
    · cases h
    · cases h; simp [*]

theorem updateVolume_error_inv {w w1 : World} {pv : PersistentVolume} {err : GoError}
    (h : updateVolume w pv = (some err, w1)) :
    w1 = w.record (.updateVolume pv) (some err) := by
  unfold updateVolume at h
  split at h
  · cases h; rfl
  · split at h
    · cases h; rfl
    · cases h

theorem updateVolume_ok_inv {w w1 : World} {pv : PersistentVolume}
    (h : updateVolume w pv = (none, w1)) :
    w1 = { w.record (.updateVolume pv) none with
        volumes := fun k =>
          if k = pv.Name then some pv.PersistentVolumeReclaimPolicy else w.volumes k } ∧
      w.fault = none := by
  unfold updateVolume at h
  split at h
  · cases h
  · split at h
    · cases h
    · cases h; simp [*]

theorem deleteClaim_error_inv {w w1 : World} {ns name : String} {err : GoError}
    (h : deleteClaim w ns name = (some err, w1)) :
    w1 = w.record (.deleteClaim ns name) (some err) := by
  unfold deleteClaim at h
  split at h
  · cases h; rfl
  · split at h
    · cases h; rfl
    · cases h

theorem deleteClaim_ok_inv {w w1 : World} {ns name : String}
    (h : deleteClaim w ns name = (none, w1)) :
    w1 = { w.record (.deleteClaim ns name) none with
        claims := fun k => if k = (ns, name) then none else w.claims k } ∧
      w.fault = none := by
  unfold deleteClaim at h
  split at h
  · cases h
  · split at h
    · cases h
    · cases h; simp [*]

theorem deleteVolume_error_inv {w w1 : World} {name : String} {err : GoError}
    (h : deleteVolume w name = (some err, w1)) :
    w1 = w.record (.deleteVolume name) (some err) := by
  unfold deleteVolume at h
  split at h
  · cases h; rfl
  · split at h
    · cases h; rfl
    · cases h

theorem deleteVolume_ok_inv {w w1 : World} {name : String}
    (h : deleteVolume w name = (none, w1)) :
    w1 = { w.record (.deleteVolume name) none with
        volumes := fun k => if k = name then none else w.volumes k } ∧
      w.fault = none := by
  unfold deleteVolume at h
  split at h
  · cases h
  · split at h
    · cases h
    · cases h; simp [*]

/-! ## The conflict-retry loop -/

theorem OnError_updateVolume (pv : PersistentVolume) :
    ∀ (steps : Nat) (lastErr : Option GoError) (w w1 : World) (r : Option GoError),
      OnError IsConflict (fun w => updateVolume w pv) steps lastErr w = (r, w1) →
      ∃ ups, w1.trace = w.trace ++ ups ∧ (∀ e ∈ ups, e.call = .updateVolume pv) ∧
        w1.instances = w.instances ∧ w1.claims = w.claims ∧
        w1.backOffDuration = w.backOffDuration ∧ w1.events = w.events ∧
        w1.faults = w.faults ∧
        ((ups = [] ∧ r = lastErr) ∨ ∃ ups1, ups = ups1 ++ [⟨.updateVolume pv, r⟩]) := by
  intro steps
  induction steps with
  | zero =>
    intro lastErr w w1 r h
    simp only [OnError] at h
    cases h
    exact ⟨[], by simp⟩
  | succ n ih =>
    intro lastErr w w1 r h
    simp only [OnError] at h
    split at h
    · next w2 hu =>
      cases h
      obtain ⟨rfl, -⟩ := updateVolume_ok_inv hu
      exact ⟨[⟨.updateVolume pv, none⟩], by simp [World.record], by simp, rfl, rfl, rfl, rfl, rfl,
        Or.inr ⟨[], rfl⟩⟩
    · next err w2 hu =>
      have hw2 := updateVolume_error_inv hu
      subst hw2
      split at h
      · obtain ⟨ups, ht, hall, hi, hc, hb, he, hf, hlast⟩ := ih _ _ _ _ h
        refine ⟨⟨.updateVolume pv, some err⟩ :: ups, ?_, ?_, hi, hc, hb, he, hf, ?_⟩
        · simp [ht, World.record]
        · intro e he
          rcases List.mem_cons.1 he with rfl | he
          · rfl
          · exact hall e he
        · rcases hlast with ⟨rfl, rfl⟩ | ⟨ups1, rfl⟩
          · exact Or.inr ⟨[], rfl⟩
          · exact Or.inr ⟨⟨.updateVolume pv, some err⟩ :: ups1, rfl⟩
      · cases h
        exact ⟨[⟨.updateVolume pv, some err⟩], by simp [World.record], by simp, rfl, rfl, rfl,
          rfl, rfl, Or.inr ⟨[], rfl⟩⟩

theorem RetryOnConflict_updateVolume {pv : PersistentVolume} {w w1 : World}
    {r : Option GoError} (h : RetryOnConflict (fun w => updateVolume w pv) w = (r, w1)) :
    ∃ ups, w1.trace = w.trace ++ ups ++ [⟨.updateVolume pv, r⟩] ∧
      (∀ e ∈ ups, e.call = .updateVolume pv) ∧
      w1.instances = w.instances ∧ w1.claims = w.claims ∧
      w1.backOffDuration = w.backOffDuration ∧ w1.events = w.events ∧
      w1.faults = w.faults := by
  unfold RetryOnConflict DefaultRetrySteps at h
  have h5 : (5 : Nat) = 4 + 1 := rfl
  rw [h5, OnError] at h
  split at h
  · next w2 hu =>
    cases h
    obtain ⟨rfl, -⟩ := updateVolume_ok_inv hu
    exact ⟨[], by simp [World.record], by simp, rfl, rfl, rfl, rfl, rfl⟩
  · next err w2 hu =>
    have hw2 := updateVolume_error_inv hu
    subst hw2
    split at h
    · obtain ⟨ups, ht, hall, hi, hc, hb, he, hf, hlast⟩ := OnError_updateVolume pv _ _ _ _ _ h
      rcases hlast with ⟨rfl, rfl⟩ | ⟨ups1, rfl⟩
      · exact ⟨[], by simp [ht, World.record], by simp, hi, hc, hb, he, hf⟩
      · refine ⟨⟨.updateVolume pv, some err⟩ :: ups1, by simp [ht, World.record], ?_, hi, hc,
          hb, he, hf⟩
        intro e he
        rcases List.mem_cons.1 he with rfl | he
        · rfl
        · exact hall e (List.mem_append_left _ he)
    · cases h
      exact ⟨[], by simp [World.record], by simp, rfl, rfl, rfl, rfl, rfl⟩

theorem setInstanceError_spec (w : World) (inst : CnsUnregisterVolume) (msg : String) :
    ∃ e, (setInstanceError w inst msg).2.trace = w.trace ++
        [⟨.updateInstance { inst with Status := { inst.Status with Error := msg } }, e⟩] ∧
      (setInstanceError w inst msg).2.backOffDuration = (fun k =>
        if k = inst.Name then some (wrapInt64 (w.getBackOff inst.Name * 2))
        else w.backOffDuration k) ∧
      (setInstanceError w inst msg).2.events = w.events ++ [warningEvent inst msg] ∧
      (setInstanceError w inst msg).2.instances = (fun k =>
        if k = (inst.Namespace, inst.Name) ∧ e = none then
          some (inst.Spec, ⟨inst.Status.Unregistered, msg⟩)
        else w.instances k) ∧
      (setInstanceError w inst msg).2.claims = w.claims ∧
      (setInstanceError w inst msg).2.volumes = w.volumes := by
  simp only [setInstanceError, updateCnsUnregisterVolume]
  rcases hcu : clientUpdate w ⟨inst.Namespace, inst.Name, inst.Spec,
    ⟨inst.Status.Unregistered, msg⟩⟩ with ⟨r, w1⟩
  cases r with
  | none =>
    obtain ⟨rfl, -⟩ := clientUpdate_ok_inv hcu
    refine ⟨none, ?_⟩
    simp [recordEvent, EventTypeWarning, World.setBackOff, World.getBackOff, World.record,
      warningEvent]
  | some err =>
    have := clientUpdate_error_inv hcu
    subst this
    refine ⟨some err, ?_⟩
    simp [recordEvent, EventTypeWarning, World.setBackOff, World.getBackOff, World.record,
      warningEvent]

theorem deleteClaim_frame {w w1 : World} {ns name : String} {e : Option GoError}
    (h : deleteClaim w ns name = (e, w1)) :
    w1.trace = w.trace ++ [⟨.deleteClaim ns name, e⟩] ∧
      w1.backOffDuration = w.backOffDuration ∧ w1.events = w.events ∧
      w1.instances = w.instances ∧ w1.volumes = w.volumes := by
  cases e with
  | none => obtain ⟨rfl, -⟩ := deleteClaim_ok_inv h; simp [World.record]
  | some err => have := deleteClaim_error_inv h; subst this; simp [World.record]

theorem deleteVolume_frame {w w1 : World} {name : String} {e : Option GoError}
    (h : deleteVolume w name = (e, w1)) :
    w1.trace = w.trace ++ [⟨.deleteVolume name, e⟩] ∧
      w1.backOffDuration = w.backOffDuration ∧ w1.events = w.events ∧
      w1.instances = w.instances ∧ w1.claims = w.claims := by
  cases e with
  | none => obtain ⟨rfl, -⟩ := deleteVolume_ok_inv h; simp [World.record]
  | some err => have := deleteVolume_error_inv h; subst this; simp [World.record]

/-- What the end of `Reconcile` does, by outcome of the success status update. -/
theorem reconcileEnd_spec (w : World) (inst : CnsUnregisterVolume) (timeout : Duration) :
    (∃ err e,
      (reconcileEnd w inst timeout).1 = (⟨false, timeout⟩, none) ∧
      (reconcileEnd w inst timeout).2.trace = w.trace ++
        [⟨.updateInstance { inst with Status := ⟨true, ""⟩ }, some err⟩,
         ⟨.updateInstance
            { inst with
              Status := ⟨true,
                "Failed to update CnsUnregistered instance with error: " ++ err.Error⟩ },
          e⟩] ∧
      (reconcileEnd w inst timeout).2.backOffDuration = (fun k =>
        if k = inst.Name then some (wrapInt64 (w.getBackOff inst.Name * 2))
        else w.backOffDuration k) ∧
      (reconcileEnd w inst timeout).2.instances = (fun k =>
        if k = (inst.Namespace, inst.Name) ∧ e = none then
          some (inst.Spec,
            ⟨true, "Failed to update CnsUnregistered instance with error: " ++ err.Error⟩)
        else w.instances k)) ∨
    ((reconcileEnd w inst timeout).1 = (Result.empty, none) ∧
      (reconcileEnd w inst timeout).2.trace = w.trace ++
        [⟨.updateInstance { inst with Status := ⟨true, ""⟩ }, none⟩] ∧
      (reconcileEnd w inst timeout).2.backOffDuration = (fun k =>
        if k = inst.Name then none else w.backOffDuration k) ∧
      (reconcileEnd w inst timeout).2.instances (inst.Namespace, inst.Name) =
        some (inst.Spec, ⟨true, ""⟩)) := by
  simp only [reconcileEnd, setInstanceSuccess, updateCnsUnregisterVolume]
  rcases hcu : clientUpdate w ⟨inst.Namespace, inst.Name, inst.Spec, ⟨true, ""⟩⟩ with ⟨r, w1⟩
  cases r with
  | none =>
    obtain ⟨rfl, -⟩ := clientUpdate_ok_inv hcu
    right
    simp only [recordEvent, EventTypeNormal, EventTypeWarning]
    refine ⟨trivial, ?_, ?_, ?_⟩
    · simp [World.deleteBackOff, World.setBackOff, World.record]
    · funext k
      by_cases hk : k = inst.Name <;> simp [World.deleteBackOff, World.setBackOff, World.record, hk]
    · simp [World.deleteBackOff, World.setBackOff, World.record]
  | some err =>
    have := clientUpdate_error_inv hcu
    subst this
    left
    obtain ⟨e, ht, hb, -, hi, -⟩ := setInstanceError_spec
      (w.record (.updateInstance ⟨inst.Namespace, inst.Name, inst.Spec, ⟨true, ""⟩⟩) (some err))
      ⟨inst.Namespace, inst.Name, inst.Spec, ⟨true, ""⟩⟩
      ("Failed to update CnsUnregistered instance with error: " ++ err.Error)
    refine ⟨err, e, rfl, ?_, ?_, ?_⟩
    · simpa [World.record] using ht
    · simpa [World.record, World.getBackOff] using hb
    · simpa [World.record] using hi

theorem reconcileTail_spec (w : World) (inst : CnsUnregisterVolume) (pvName : String)
    (timeout : Duration) :
    TailOutcome w inst pvName timeout (reconcileTail w inst pvName timeout) := by
  have key : ∀ (e2 : Option GoError) (w8 : World), Tolerated e2 →
      deleteVolume w pvName = (e2, w8) →
      TailOutcome w inst pvName timeout (reconcileEnd w8 inst timeout) := by
    intro e2 w8 htol hdv
    obtain ⟨ht, hb, he, hi, hc⟩ := deleteVolume_frame hdv
    rcases reconcileEnd_spec w8 inst timeout with ⟨err, e, h1, h2, h3, h5⟩ | ⟨h1, h2, h3, h4⟩
    · exact Or.inr (Or.inl ⟨e2, err, e, htol, h1, by simp [h2, ht], by
        simp [h3, hb, World.getBackOff], by rw [h5, hi]⟩)
    · exact Or.inr (Or.inr ⟨e2, htol, h1, by simp [h2, ht], by simp [h3, hb], h4⟩)
  rcases hdv : deleteVolume w pvName with ⟨e2, w8⟩
  cases e2 with
  | none =>
    have heq : reconcileTail w inst pvName timeout =
        reconcileEnd w8 inst timeout := by simp [reconcileTail, hdv]
    rw [heq]
    exact key none w8 rfl hdv
  | some err =>
    cases hnf : IsNotFound err with
    | true =>
      have heq : reconcileTail w inst pvName timeout =
          reconcileEnd w8 inst timeout := by simp [reconcileTail, hdv, hnf]
      rw [heq]
      exact key (some err) w8 hnf hdv
    | false =>
      obtain ⟨ht, hb, he, hi, hc⟩ := deleteVolume_frame hdv
      have heq : reconcileTail w inst pvName timeout =
          ((Result.empty, some err), w8) := by simp [reconcileTail, hdv, hnf]
      rw [heq]
      exact Or.inl ⟨err, hnf, rfl, ht, hb, he, hi⟩

theorem seed_spec (w : World) (name : String) :
    (if (w.backOffDuration name).isNone then w.setBackOff name Second else w).trace = w.trace ∧
    (if (w.backOffDuration name).isNone then w.setBackOff name Second else w).backOffDuration =
      seeded w name ∧
    (if (w.backOffDuration name).isNone then w.setBackOff name Second else w).events =
      w.events ∧
    (if (w.backOffDuration name).isNone then w.setBackOff name Second else w).instances =
      w.instances ∧
    (if (w.backOffDuration name).isNone then w.setBackOff name Second else w).claims =
      w.claims ∧
    (if (w.backOffDuration name).isNone then w.setBackOff name Second else w).volumes =
      w.volumes ∧
    (if (w.backOffDuration name).isNone then w.setBackOff name Second else w).faults =
      w.faults ∧
    (if (w.backOffDuration name).isNone then w.setBackOff name Second else w).getBackOff name =
      (w.backOffDuration name).getD Second := by
  have hfun : (if (w.backOffDuration name).isNone then w.setBackOff name Second
      else w).backOffDuration = seeded w name := by
    funext k
    cases hb : w.backOffDuration name <;> by_cases hk : k = name <;>
      simp [seeded, hk, hb, World.setBackOff]
  refine ⟨?_, hfun, ?_, ?_, ?_, ?_, ?_, ?_⟩
  all_goals cases hb : w.backOffDuration name <;> simp [World.setBackOff, World.getBackOff, hb]

theorem validate_some {inst : CnsUnregisterVolume} {err : GoError}
    (h : validateCnsUnregisterVolumeSpec inst = some err) :
    inst.Spec.PvcName = "" ∧ err = .other "Pvc name not specified in the spec" := by
  unfold validateCnsUnregisterVolumeSpec at h
  by_cases hp : inst.Spec.PvcName = ""
  · simp [hp] at h
    exact ⟨hp, h.symm⟩
  · simp [hp] at h

theorem validate_none {inst : CnsUnregisterVolume}
    (h : validateCnsUnregisterVolumeSpec inst = none) : inst.Spec.PvcName ≠ "" := by
  unfold validateCnsUnregisterVolumeSpec at h
  intro hp
  simp [hp] at h

theorem doubled_of_seeded (w : World) (name : String) (t : Duration)
    (ht : t = (w.backOffDuration name).getD Second) :
    (fun k => if k = name then some (wrapInt64 (t * 2)) else seeded w name k) =
      doubled w name := by
  funext k
  by_cases hk : k = name <;> simp [seeded, doubled, hk, ht]

theorem forgotten_of_seeded (w : World) (name : String) :
    (fun k => if k = name then none else seeded w name k) = forgotten w name := by
  funext k
  by_cases hk : k = name <;> simp [seeded, forgotten, hk]

theorem Reconcile_path (w : World) (request : NamespacedName) :
    ∃ calls, (Reconcile w request).2.trace = w.trace ++ calls ∧
      Path w request (Reconcile w request).1 (Reconcile w request).2 calls := by
  generalize hr : Reconcile w request = r
  unfold Reconcile at hr
  split at hr
  · next err w1 hget =>
    have := clientGet_error_inv hget
    subst this
    split at hr
    · next hnf =>
      subst hr
      exact ⟨_, rfl, Path.instanceGone err _ hnf rfl rfl rfl rfl rfl⟩
    · next hnf =>
      subst hr
      exact ⟨_, rfl, Path.instanceGetFailed err _ (by simpa using hnf) rfl rfl rfl⟩
  · next inst w1 hget =>
    obtain ⟨rfl, hns, hname, hstore, -⟩ := clientGet_ok_inv hget
    have hseed := seed_spec (w.record (.getInstance request) none) inst.Name
    generalize hw2 : (if ((w.record (.getInstance request) none).backOffDuration inst.Name).isNone
      then (w.record (.getInstance request) none).setBackOff inst.Name Second
      else w.record (.getInstance request) none) = w2 at hr hseed
    obtain ⟨ht2, hb2, he2, hi2, hc2, hv2, hf2, hto⟩ := hseed
    clear hw2 hget
    dsimp only at hr
    have hb2 : w2.backOffDuration = seeded w request.Name := by rw [hb2, hname]; rfl
    have hto : w2.getBackOff inst.Name = (w.backOffDuration request.Name).getD Second := by
      rw [hto, hname]; rfl
    have ht2 : w2.trace = w.trace ++ [⟨.getInstance request, none⟩] := ht2
    have he2 : w2.events = w.events := he2
    have hi2 : w2.instances = w.instances := hi2
    have hc2 : w2.claims = w.claims := hc2
    have hv2 : w2.volumes = w.volumes := hv2
    rw [hto] at hr
    split at hr
    · next hu =>
      subst hr
      refine ⟨_, ?_, Path.unregistered inst _ hstore hu ?_ he2 hi2 hc2 hv2⟩
      · simpa [World.deleteBackOff] using ht2
      · simp only [World.deleteBackOff, hb2, hname]
        exact forgotten_of_seeded w request.Name
    · next hu =>
      have hu : inst.Status.Unregistered = false := by simpa using hu
      split at hr
      · next err hv =>
        obtain ⟨hpvc, rfl⟩ := validate_some hv
        subst hr
        obtain ⟨e, hte, hbe, hee, hie, hce, hve⟩ :=
          setInstanceError_spec w2 inst "Pvc name not specified in the spec"
        refine ⟨_, ?_, Path.invalid inst e _ hstore hns hname hu hpvc ?_ ?_ ?_ ?_ ?_⟩
        · simpa [ht2, GoError.Error] using hte
        · show (setInstanceError w2 inst "Pvc name not specified in the spec").2.backOffDuration = _
          rw [hbe, hto, hb2, hname]
          exact doubled_of_seeded w request.Name _ rfl
        · simpa [GoError.Error, he2] using hee
        · simp only [GoError.Error, hie, hi2, hns, hname, hu]
        · simpa [GoError.Error, hc2] using hce
        · simpa [GoError.Error, hv2] using hve
      · next hv =>
        have hpvc := validate_none hv
        split at hr
        · next err w3 hnc =>
          have := NewClient_error_inv hnc
          subst this
          subst hr
          obtain ⟨e, hte, hbe, hee, hie, -⟩ := setInstanceError_spec
            (w2.record .newClient (some err)) inst
            "Failed to init K8S client for volume unregistration"
          refine ⟨_, ?_, Path.newClientFailed inst err e _ hns hname hu hpvc ?_ ?_ hstore ?_⟩
          · simpa [ht2, World.record] using hte
          · show (setInstanceError (w2.record .newClient (some err)) inst
              "Failed to init K8S client for volume unregistration").2.backOffDuration = _
            rw [hbe]
            show (fun k => if k = inst.Name then some (wrapInt64 (w2.getBackOff inst.Name * 2))
              else w2.backOffDuration k) = _
            rw [hto, hb2, hname]
            exact doubled_of_seeded w request.Name _ rfl
          · simpa [he2, World.record] using hee
          · show (setInstanceError (w2.record .newClient (some err)) inst
              "Failed to init K8S client for volume unregistration").2.instances = _
            rw [hie]
            show (fun k => if k = (inst.Namespace, inst.Name) ∧ e = none then _
              else w2.instances k) = _
            rw [hi2, hns, hname, hu]
        · next w3 hnc =>
          obtain ⟨rfl, -⟩ := NewClient_ok_inv hnc
          split at hr
          · next err w4 hgc =>
            have := getClaim_error_inv hgc
            subst this
            subst hr
            refine ⟨_, ?_, Path.getClaimFailed inst err _ hu hpvc hb2 he2 hi2⟩
            simp [World.record, ht2, hns]
          · next pvc w4 hgc =>
            obtain ⟨rfl, hclaim, -⟩ := getClaim_ok_inv hgc
            have hclaim : w.claims (request.Namespace, inst.Spec.PvcName) = some pvc.VolumeName := by
              rw [← hc2, ← hns]; exact hclaim
            split at hr
            · next err w5 hgv =>
              have := getVolume_error_inv hgv
              subst this
              subst hr
              refine ⟨_, ?_, Path.getVolumeFailed inst pvc.VolumeName err _ hu hpvc hclaim hb2
                he2 hi2⟩
              simp [World.record, ht2, hns]
            · next pv w5 hgv =>
              obtain ⟨rfl, hpvn, -, -⟩ := getVolume_ok_inv hgv
              rw [hpvn] at hr
              have hopen : (((w2.record .newClient none).record
                  (.getClaim inst.Namespace inst.Spec.PvcName) none).record
                  (.getVolume pvc.VolumeName) none).trace =
                  w.trace ++ opening request inst.Spec.PvcName pvc.VolumeName := by
                simp [World.record, ht2, hns, opening]
              split at hr
              · next err w6 hretry =>
                obtain ⟨ups, htr, hups, hir, hcr, hbr, her, -⟩ :=
                  RetryOnConflict_updateVolume hretry
                subst hr
                refine ⟨_, ?_, Path.retainFailed inst pvc.VolumeName ups err _ hu hpvc hclaim
                  hups (by rw [hbr]; exact hb2) (by rw [her]; exact he2)
                  (by rw [hir]; exact hi2)⟩
                rw [htr, hopen]
                simp
              · next w6 hretry =>
                obtain ⟨ups, htr, hups, hir, hcr, hbr, her, -⟩ :=
                  RetryOnConflict_updateVolume hretry
                rw [hopen] at htr
                have tail : ∀ (e1 : Option GoError) (w7 : World), Tolerated e1 →
                    deleteClaim w6 inst.Namespace inst.Spec.PvcName = (e1, w7) →
                    reconcileTail w7 inst pvc.VolumeName
                      ((w.backOffDuration request.Name).getD Second) = r →
                    ∃ calls, r.2.trace = w.trace ++ calls ∧ Path w request r.1 r.2 calls := by
                  intro e1 w7 htol hdc htail
                  obtain ⟨ht7, hb7, he7, hi7, -⟩ := deleteClaim_frame hdc
                  have hb7 : w7.backOffDuration = seeded w request.Name := by
                    rw [hb7, hbr]; exact hb2
                  have hg7 : w7.getBackOff inst.Name =
                      (w.backOffDuration request.Name).getD Second := by
                    simp [World.getBackOff, hb7, hname, seeded]
                  subst htail
                  rcases reconcileTail_spec w7 inst pvc.VolumeName
                    ((w.backOffDuration request.Name).getD Second) with
                    ⟨err, hnf, h1, h2, h3, h4, h5⟩ | ⟨e2, err, e, htol2, h1, h2, h3, h6⟩ |
                    ⟨e2, htol2, h1, h2, h3, h4⟩
                  · rw [h1]
                    refine ⟨_, ?_, Path.deleteVolumeFailed inst pvc.VolumeName ups e1 err _ hu
                      hpvc hclaim hups htol hnf (by rw [h3]; exact hb7)
                      (by rw [h4, he7, her]; exact he2) (by rw [h5, hi7, hir]; exact hi2)⟩
                    rw [h2, ht7, htr]
                    simp [hns]
                  · rw [h1]
                    refine ⟨_, ?_, Path.statusUpdateFailed inst pvc.VolumeName ups e1 e2 err e _
                      hns hname hu hpvc hclaim hups htol htol2 ?_ hstore ?_⟩
                    · rw [h2, ht7, htr]
                      simp [hns]
                    · rw [h3, hg7, hb7, hname]
                      exact doubled_of_seeded w request.Name _ rfl
                    · rw [h6, hi7, hir, hns, hname]
                      show (fun k => if k = (request.Namespace, request.Name) ∧ e = none then _
                        else w2.instances k) = _
                      rw [hi2]
                  · rw [h1]
                    refine ⟨_, ?_, Path.succeeded inst pvc.VolumeName ups e1 e2 _
                      hns hname hu hpvc hclaim hups htol htol2 ?_ ?_ hstore⟩
                    · rw [h2, ht7, htr]
                      simp [hns]
                    · rw [h3, hb7, hname]
                      exact forgotten_of_seeded w request.Name
                    · rw [hns, hname] at h4
                      exact h4
                split at hr
                · next err w7 hdc =>
                  split at hr
                  · next hnf =>
                    have hnf : IsNotFound err = false := by simpa using hnf
                    obtain ⟨ht7, hb7, he7, hi7, -⟩ := deleteClaim_frame hdc
                    subst hr
                    refine ⟨_, ?_, Path.deleteClaimFailed inst pvc.VolumeName ups err _ hu hpvc
                      hclaim hups hnf (by rw [hb7, hbr]; exact hb2)
                      (by rw [he7, her]; exact he2) (by rw [hi7, hir]; exact hi2)⟩
                    show w7.trace = _
                    rw [ht7, htr]
                    simp [hns]
                  · next hnf =>
                    have hnf : IsNotFound err = true := by simpa using hnf
                    exact tail (some err) w7 hnf hdc hr
                · next w7 hdc =>
                  exact tail none w7 rfl hdc hr

theorem clientGet_fst_ok {w : World} {request : NamespacedName} {inst : CnsUnregisterVolume}
    (h : (clientGet w request).1 = .ok inst) :
    clientGet w request = (.ok inst, w.record (.getInstance request) none) := by
  rcases hc : clientGet w request with ⟨r, w1⟩
  rw [hc] at h
  cases h
  obtain ⟨rfl, -⟩ := clientGet_ok_inv hc
  rfl

theorem clientGet_fst_error {w : World} {request : NamespacedName} {err : GoError}
    (h : (clientGet w request).1 = .error err) :
    clientGet w request = (.error err, w.record (.getInstance request) (some err)) := by
  rcases hc : clientGet w request with ⟨r, w1⟩
  rw [hc] at h
  cases h
  have := clientGet_error_inv hc
  subst this
  rfl

/-- `Reconcile` on a resource that is read, is not unregistered and fails
validation: the world `w2` after the seeding and what is returned. -/
theorem Reconcile_invalid_eq {w : World} {request : NamespacedName}
    {inst : CnsUnregisterVolume} (hget : (clientGet w request).1 = .ok inst)
    (hpvc : inst.Spec.PvcName = "") (hu : inst.Status.Unregistered = false) :
    ∃ w2, w2.trace = w.trace ++ [⟨.getInstance request, none⟩] ∧
      w2.backOffDuration = seeded w request.Name ∧ w2.events = w.events ∧
      w2.instances = w.instances ∧ w2.claims = w.claims ∧ w2.volumes = w.volumes ∧
      w2.faults = w.faults ∧
      Reconcile w request =
        ((⟨false, (w.backOffDuration request.Name).getD Second⟩, none),
          (setInstanceError w2 inst "Pvc name not specified in the spec").2) := by
  have h := clientGet_fst_ok hget
  obtain ⟨-, hns, hname, hstore, -⟩ := clientGet_ok_inv h
  have hv : validateCnsUnregisterVolumeSpec inst =
      some (.other "Pvc name not specified in the spec") := by
    simp [validateCnsUnregisterVolumeSpec, hpvc]
  generalize hr : Reconcile w request = r
  unfold Reconcile at hr
  split at hr
  · next err w1 hget1 => rw [h] at hget1; cases hget1
  · next inst1 w1 hget1 =>
    rw [h] at hget1
    cases hget1
    have hseed := seed_spec (w.record (.getInstance request) none) inst.Name
    generalize (if ((w.record (.getInstance request) none).backOffDuration inst.Name).isNone
      then (w.record (.getInstance request) none).setBackOff inst.Name Second
      else w.record (.getInstance request) none) = w2 at hr hseed
    obtain ⟨ht2, hb2, he2, hi2, hc2, hv2, hf2, hto⟩ := hseed
    simp only [hu, hv, Bool.false_eq_true, if_false, GoError.Error] at hr
    subst hr
    refine ⟨w2, ht2, ?_, he2, hi2, hc2, hv2, hf2, ?_⟩
    · rw [hb2, hname]; rfl
    · rw [hto, hname]; rfl

theorem Reconcile_path_eq (w : World) (request : NamespacedName) :
    ∃ res wf calls, Reconcile w request = (res, wf) ∧ wf.trace = w.trace ++ calls ∧
      Path w request res wf calls := by
  obtain ⟨calls, ht, hp⟩ := Reconcile_path w request
  exact ⟨_, _, calls, rfl, ht, hp⟩

theorem mem_before_of_split {L R before after : List Entry} {d : Entry}
    (h : L ++ R = before ++ d :: after) (hd : d ∉ L) :
    (∀ u ∈ L, u ∈ before) ∧ d ∈ R := by
  rcases List.append_eq_append_iff.1 h with ⟨a, rfl, rfl⟩ | ⟨c, rfl, hc⟩
  · exact ⟨fun u hu => List.mem_append_left _ hu, by simp⟩
  · cases c with
    | nil =>
      simp only [List.nil_append] at hc
      exact ⟨fun u hu => by simpa using hu, by rw [← hc]; simp⟩
    | cons x c =>
      simp only [List.cons_append, List.cons.injEq] at hc
      exact absurd (by rw [hc.1]; simp) hd

theorem opening_no_delete {request : NamespacedName} {pvcName pvName : String}
    {ups : List Entry} {x : Option GoError}
    (hups : ∀ e ∈ ups, e.call = .updateVolume ⟨pvName, .Retain⟩) :
    ∀ e ∈ opening request pvcName pvName ++ ups ++ [⟨.updateVolume ⟨pvName, .Retain⟩, x⟩],
      e.call.isDelete = false := by
  intro e he
  simp only [opening, List.mem_append, List.mem_cons, List.mem_singleton,
    List.not_mem_nil, or_false] at he
  rcases he with ((rfl | rfl | rfl | rfl) | he) | rfl
  · rfl
  · rfl
  · rfl
  · rfl
  · rw [hups e he]; rfl
  · rfl

theorem opening_mem {request : NamespacedName} {pvcName pvName : String}
    {ups : List Entry} {x : Option GoError} {c : Call} {err : GoError}
    (hups : ∀ e ∈ ups, e.call = .updateVolume ⟨pvName, .Retain⟩)
    (hstep : isStepFailure c err = true) :
    (⟨c, some err⟩ : Entry) ∉
      opening request pvcName pvName ++ ups ++ [⟨.updateVolume ⟨pvName, .Retain⟩, x⟩] := by
  intro he
  simp only [opening, List.mem_append, List.mem_cons, List.mem_singleton,
    List.not_mem_nil, or_false] at he
  rcases he with ((h | h | h | h) | he) | h
  · cases h
  · cases h
  · cases h
  · cases h
  · have := hups _ he
    simp only at this
    subst this
    cases hstep
  · cases h
    cases hstep

theorem opening_ups_mem {request : NamespacedName} {pvcName pvName : String}
    {ups : List Entry} {c : Call} {err : GoError}
    (hups : ∀ e ∈ ups, e.call = .updateVolume ⟨pvName, .Retain⟩)
    (hstep : isStepFailure c err = true) :
    (⟨c, some err⟩ : Entry) ∉ opening request pvcName pvName ++ ups := by
  intro he
  exact opening_mem hups hstep
    (List.mem_append_left [(⟨.updateVolume ⟨pvName, .Retain⟩, none⟩ : Entry)] he)

theorem opening_ups_not_status {request : NamespacedName} {pvcName pvName : String}
    {ups : List Entry} (hups : ∀ e ∈ ups, e.call = .updateVolume ⟨pvName, .Retain⟩) :
    ∀ e ∈ opening request pvcName pvName ++ ups, ∀ inst, e.call ≠ .updateInstance inst := by
  intro e he inst
  simp only [opening, List.mem_append, List.mem_cons, List.mem_singleton,
    List.not_mem_nil, or_false] at he
  rcases he with (rfl | rfl | rfl | rfl) | he
  · simp
  · simp
  · simp
  · simp
  · rw [hups e he]; simp

theorem wrapInt64_mul_wrapInt64 (a b : Int) : wrapInt64 (wrapInt64 a * b) = wrapInt64 (a * b) := by
  unfold wrapInt64
  have h : ((a + 2 ^ 63) % 2 ^ 64 - 2 ^ 63) * b + 2 ^ 63 ≡ a * b + 2 ^ 63 [ZMOD 2 ^ 64] := by
    apply Int.ModEq.add_right
    apply Int.ModEq.mul_right
    have h1 : (a + 2 ^ 63) % 2 ^ 64 ≡ a + 2 ^ 63 [ZMOD 2 ^ 64] := Int.mod_modEq _ _
    have h2 := h1.sub_right (2 ^ 63)
    rwa [add_sub_cancel_right] at h2
  rw [h]

theorem wrapInt64_of_bounds {x : Int} (h0 : -(2 ^ 63) ≤ x) (h1 : x < 2 ^ 63) :
    wrapInt64 x = x := by
  unfold wrapInt64
  rw [Int.emod_eq_of_lt (by omega) (by omega)]
  omega

theorem failsValidation_step {w : World} {request : NamespacedName}
    (h : failsValidation w request = true) :
    (Reconcile w request).2.backOffDuration = doubled w request.Name := by
  unfold failsValidation at h
  split at h
  · next inst hget =>
    simp only [Bool.and_eq_true, Bool.not_eq_true', Option.isSome_iff_exists] at h
    obtain ⟨hu, err, hv⟩ := h
    obtain ⟨hpvc, -⟩ := validate_some hv
    obtain ⟨-, hns, hname, -, -⟩ := clientGet_ok_inv (clientGet_fst_ok hget)
    obtain ⟨w2, -, hb2, -, -, -, -, -, heq⟩ := Reconcile_invalid_eq hget hpvc hu
    obtain ⟨e, -, hbe, -⟩ := setInstanceError_spec w2 inst "Pvc name not specified in the spec"
    rw [heq]
    show (setInstanceError w2 inst _).2.backOffDuration = _
    rw [hbe, hb2, hname]
    apply doubled_of_seeded
    simp [World.getBackOff, hb2, seeded]
  · cases h

/-- The stored delay after `n + 1` consecutive validation failures. -/
theorem reconcileN_backOff (request : NamespacedName) :
    ∀ (n : Nat) (w : World), validationFailures request (n + 1) w = true →
      (reconcileN request (n + 1) w).backOffDuration request.Name =
        some (wrapInt64 ((w.backOffDuration request.Name).getD Second * 2 ^ (n + 1))) := by
  intro n
  induction n with
  | zero =>
    intro w h
    simp only [validationFailures, Bool.and_true] at h
    simp [reconcileN, failsValidation_step h, doubled]
  | succ n ih =>
    intro w h
    rw [validationFailures, Bool.and_eq_true] at h
    obtain ⟨h1, h2⟩ := h
    rw [reconcileN, ih _ h2, failsValidation_step h1]
    simp only [doubled, if_true, Option.getD_some]
    rw [wrapInt64_mul_wrapInt64]
    congr 2
    ring

/-- The statuses submitted by one reconciliation: every status with
`unregistered = true` has an empty error, except the one that
`setInstanceError` submits after the status update that marks success failed
with `err`. -/
theorem submitted_status_cases (w : World) (request : NamespacedName) (calls : List Entry)
    (inst : CnsUnregisterVolume) (e : Option GoError)
    (htrace : (Reconcile w request).2.trace = w.trace ++ calls)
    (hmem : ⟨.updateInstance inst, e⟩ ∈ calls) (hu : inst.Status.Unregistered = true) :
    inst.Status.Error = "" ∨
      ∃ err, ⟨.updateInstance { inst with Status := ⟨true, ""⟩ }, some err⟩ ∈ calls ∧
        inst.Status.Error =
          "Failed to update CnsUnregistered instance with error: " ++ err.Error := by
  obtain ⟨res, wf, calls1, heq, ht, hp⟩ := Reconcile_path_eq w request
  rw [heq] at htrace
  simp only at htrace
  rw [ht] at htrace
  have hcalls : calls1 = calls := List.append_cancel_left htrace
  subst hcalls
  have hpre : ∀ {pvcName pvName : String} {ups : List Entry},
      (∀ x ∈ ups, x.call = .updateVolume ⟨pvName, .Retain⟩) →
      (⟨.updateInstance inst, e⟩ : Entry) ∉ opening request pvcName pvName ++ ups :=
    fun hups hin => opening_ups_not_status hups _ hin inst rfl
  cases hp with
  | instanceGone err1 w1 _ _ _ _ _ _ =>
    simp only [List.mem_singleton] at hmem
    cases hmem
  | instanceGetFailed err1 w1 _ _ _ =>
    simp only [List.mem_singleton] at hmem
    cases hmem
  | unregistered inst1 w1 _ _ _ _ _ _ _ =>
    simp only [List.mem_singleton] at hmem
    cases hmem
  | invalid inst1 e1 w1 _ _ _ hu1 _ _ _ _ _ _ =>
    simp only [List.mem_cons, List.mem_singleton, List.not_mem_nil, or_false] at hmem
    rcases hmem with h | h <;> cases h
    simp only at hu
    rw [hu1] at hu
    cases hu
  | newClientFailed inst1 err1 e1 w1 _ _ hu1 _ _ _ =>
    simp only [List.mem_cons, List.mem_singleton, List.not_mem_nil, or_false] at hmem
    rcases hmem with h | h | h <;> cases h
    simp only at hu
    rw [hu1] at hu
    cases hu
  | getClaimFailed inst1 err1 w1 _ _ _ _ _ =>
    simp only [List.mem_cons, List.mem_singleton, List.not_mem_nil, or_false] at hmem
    rcases hmem with h | h | h <;> cases h
  | getVolumeFailed inst1 pvName err1 w1 _ _ _ _ _ _ =>
    simp only [List.mem_cons, List.mem_singleton, List.not_mem_nil, or_false] at hmem
    rcases hmem with h | h | h | h <;> cases h
  | retainFailed inst1 pvName ups err1 w1 _ _ _ hups _ _ _ =>
    rcases List.mem_append.1 hmem with h | h
    · exact absurd h (hpre hups)
    · simp only [List.mem_singleton] at h
      cases h
  | deleteClaimFailed inst1 pvName ups err1 w1 _ _ _ hups _ _ _ _ =>
    rcases List.mem_append.1 hmem with h | h
    · exact absurd h (hpre hups)
    · simp only [List.mem_cons, List.mem_singleton, List.not_mem_nil, or_false] at h
      rcases h with h | h <;> cases h
  | deleteVolumeFailed inst1 pvName ups e1 err1 w1 _ _ _ hups _ _ _ _ _ =>
    rcases List.mem_append.1 hmem with h | h
    · exact absurd h (hpre hups)
    · simp only [List.mem_cons, List.mem_singleton, List.not_mem_nil, or_false] at h
      rcases h with h | h | h <;> cases h
  | statusUpdateFailed inst1 pvName ups e1 e2 err1 e3 w1 _ _ _ _ _ hups _ _ _ =>
    rcases List.mem_append.1 hmem with h | h
    · exact absurd h (hpre hups)
    · simp only [List.mem_cons, List.mem_singleton, List.not_mem_nil, or_false] at h
      rcases h with h | h | h | h | h <;> cases h
      · exact Or.inl rfl
      · exact Or.inr ⟨err1, by simp, rfl⟩
  | succeeded inst1 pvName ups e1 e2 w1 _ _ _ _ _ hups _ _ _ _ =>
    rcases List.mem_append.1 hmem with h | h
    · exact absurd h (hpre hups)
    · simp only [List.mem_cons, List.mem_singleton, List.not_mem_nil, or_false] at h
      rcases h with h | h | h | h <;> cases h
      exact Or.inl rfl

theorem failedUpdate_ne_empty (x : String) :
    "Failed to update CnsUnregistered instance with error: " ++ x ≠ "" := by
  intro h
  have := congrArg String.length h
  rw [String.length_append] at this
  have h2 : "Failed to update CnsUnregistered instance with error: ".length = 54 := by decide
  have h3 : "".length = 0 := rfl
  omega

/-- The outcome of every execution is the one `outcomeOfLast` reads off its
last call, with not-found deletes read as successful deletes. -/
theorem Reconcile_outcomeOfLast (w : World) (request : NamespacedName) (calls : List Entry)
    (htrace : (Reconcile w request).2.trace = w.trace ++ calls) :
    ((Reconcile w request).1,
      (Reconcile w request).2.instances (request.Namespace, request.Name),
      (Reconcile w request).2.backOffDuration request.Name) =
    outcomeOfLast (w.backOffDuration request.Name)
      (w.instances (request.Namespace, request.Name))
      (calls.map asSuccessfulDelete).getLast? := by
  obtain ⟨res, wf, calls1, heq, ht, hp⟩ := Reconcile_path_eq w request
  rw [heq] at htrace ⊢
  simp only at htrace ⊢
  rw [ht] at htrace
  have hcalls : calls1 = calls := List.append_cancel_left htrace
  subst hcalls
  cases hp with
  | instanceGone err1 w1 hnf hb _ hi _ _ =>
    simp [outcomeOfLast, asSuccessfulDelete, Call.isDelete, hnf, hb, hi]
  | instanceGetFailed err1 w1 hnf hb _ hi =>
    simp [outcomeOfLast, asSuccessfulDelete, Call.isDelete, hnf, hb, hi]
  | unregistered inst w1 _ _ hb _ hi _ _ =>
    simp [outcomeOfLast, asSuccessfulDelete, Call.isDelete, hb, hi, forgotten]
  | invalid inst e w1 hstore _ _ hu _ hb _ hi _ _ =>
    cases e <;>
      simp [outcomeOfLast, asSuccessfulDelete, Call.isDelete, hb, hi, doubled, hu, hstore]
  | newClientFailed inst err1 e w1 _ _ hu _ hb _ hstore hi =>
    cases e <;>
      simp [outcomeOfLast, asSuccessfulDelete, Call.isDelete, hb, hi, doubled, hu, hstore]
  | getClaimFailed inst err1 w1 _ _ hb _ hi =>
    simp [outcomeOfLast, asSuccessfulDelete, Call.isDelete, hb, hi, seeded]
  | getVolumeFailed inst pvName err1 w1 _ _ _ hb _ hi =>
    simp [outcomeOfLast, asSuccessfulDelete, Call.isDelete, hb, hi, seeded]
  | retainFailed inst pvName ups err1 w1 _ _ _ hups hb _ hi =>
    simp [outcomeOfLast, asSuccessfulDelete, Call.isDelete, hb, hi, seeded]
  | deleteClaimFailed inst pvName ups err1 w1 _ _ _ hups hnf hb _ hi =>
    simp [outcomeOfLast, asSuccessfulDelete, Call.isDelete, Tolerated, hnf, hb, hi, seeded]
  | deleteVolumeFailed inst pvName ups e1 err1 w1 _ _ _ hups _ hnf hb _ hi =>
    simp [outcomeOfLast, asSuccessfulDelete, Call.isDelete, Tolerated, hnf, hb, hi, seeded]
  | statusUpdateFailed inst pvName ups e1 e2 err1 e w1 _ _ _ _ _ hups _ _ hb hstore hi =>
    cases e <;>
      simp [outcomeOfLast, asSuccessfulDelete, Call.isDelete, hb, hi, doubled, hstore,
        failedUpdate_ne_empty]
  | succeeded inst pvName ups e1 e2 w1 _ _ _ _ _ hups _ _ hb hi hstore =>
    simp [outcomeOfLast, asSuccessfulDelete, Call.isDelete, hb, hi, forgotten]


/-- When the status update that marks success succeeds, the execution ends in
the terminal state. -/
theorem success_update_outcome (w : World) (request : NamespacedName) (calls : List Entry)
    (inst : CnsUnregisterVolume)
    (htrace : (Reconcile w request).2.trace = w.trace ++ calls)
    (hmem : ⟨.updateInstance inst, none⟩ ∈ calls) (hst : inst.Status = ⟨true, ""⟩) :
    (Reconcile w request).1 = (Result.empty, none) ∧
      (Reconcile w request).2.instances (request.Namespace, request.Name) =
        some (inst.Spec, ⟨true, ""⟩) ∧
      (Reconcile w request).2.backOffDuration request.Name = none := by
  obtain ⟨res, wf, calls1, heq, ht, hp⟩ := Reconcile_path_eq w request
  rw [heq] at htrace ⊢
  simp only at htrace ⊢
  rw [ht] at htrace
  have hcalls : calls1 = calls := List.append_cancel_left htrace
  subst hcalls
  have hpre : ∀ {pvcName pvName : String} {ups : List Entry},
      (∀ x ∈ ups, x.call = .updateVolume ⟨pvName, .Retain⟩) →
      (⟨.updateInstance inst, none⟩ : Entry) ∉ opening request pvcName pvName ++ ups :=
    fun hups hin => opening_ups_not_status hups _ hin inst rfl
  cases hp with
  | instanceGone err1 w1 _ _ _ _ _ _ =>
    simp only [List.mem_singleton] at hmem
    cases hmem
  | instanceGetFailed err1 w1 _ _ _ =>
    simp only [List.mem_singleton] at hmem
    cases hmem
  | unregistered inst1 w1 _ _ _ _ _ _ _ =>
    simp only [List.mem_singleton] at hmem
    cases hmem
  | invalid inst1 e1 w1 _ _ _ hu1 _ _ _ _ _ _ =>
    simp only [List.mem_cons, List.mem_singleton, List.not_mem_nil, or_false] at hmem
    rcases hmem with h | h <;> cases h
    simp [hu1] at hst
  | newClientFailed inst1 err1 e1 w1 _ _ hu1 _ _ _ =>
    simp only [List.mem_cons, List.mem_singleton, List.not_mem_nil, or_false] at hmem
    rcases hmem with h | h | h <;> cases h
    simp [hu1] at hst
  | getClaimFailed inst1 err1 w1 _ _ _ _ _ =>
    simp only [List.mem_cons, List.mem_singleton, List.not_mem_nil, or_false] at hmem
    rcases hmem with h | h | h <;> cases h
  | getVolumeFailed inst1 pvName err1 w1 _ _ _ _ _ _ =>
    simp only [List.mem_cons, List.mem_singleton, List.not_mem_nil, or_false] at hmem
    rcases hmem with h | h | h | h <;> cases h
  | retainFailed inst1 pvName ups err1 w1 _ _ _ hups _ _ _ =>
    rcases List.mem_append.1 hmem with h | h
    · exact absurd h (hpre hups)
    · simp only [List.mem_singleton] at h
      cases h
  | deleteClaimFailed inst1 pvName ups err1 w1 _ _ _ hups _ _ _ _ =>
    rcases List.mem_append.1 hmem with h | h
    · exact absurd h (hpre hups)
    · simp only [List.mem_cons, List.mem_singleton, List.not_mem_nil, or_false] at h
      rcases h with h | h <;> cases h
  | deleteVolumeFailed inst1 pvName ups e1 err1 w1 _ _ _ hups _ _ _ _ _ =>
    rcases List.mem_append.1 hmem with h | h
    · exact absurd h (hpre hups)
    · simp only [List.mem_cons, List.mem_singleton, List.not_mem_nil, or_false] at h
      rcases h with h | h | h <;> cases h
  | statusUpdateFailed inst1 pvName ups e1 e2 err1 e3 w1 _ _ _ _ _ hups _ _ _ =>
    rcases List.mem_append.1 hmem with h | h
    · exact absurd h (hpre hups)
    · simp only [List.mem_cons, List.mem_singleton, List.not_mem_nil, or_false] at h
      rcases h with h | h | h | h | h <;> cases h
      simp [failedUpdate_ne_empty] at hst
  | succeeded inst1 pvName ups e1 e2 w1 _ _ _ _ _ hups _ _ hb hi _ =>
    rcases List.mem_append.1 hmem with h | h
    · exact absurd h (hpre hups)
    · simp only [List.mem_cons, List.mem_singleton, List.not_mem_nil, or_false] at h
      rcases h with h | h | h | h <;> cases h
      exact ⟨rfl, hi, by rw [hb]; simp [forgotten]⟩

/-- Where a delete that returned not-found sits in an execution: the calls
are the opening calls, the retain updates, the claim delete, the volume
delete and the rest; the not-found delete is the claim delete, or it is the
volume delete and the rest starts with the status update that marks
success. -/
theorem not_found_delete_shape (w : World) (request : NamespacedName)
    (calls : List Entry) (c : Call) (err : GoError)
    (htrace : (Reconcile w request).2.trace = w.trace ++ calls)
    (hmem : ⟨c, some err⟩ ∈ calls) (hdel : c.isDelete = true)
    (hnf : IsNotFound err = true) :
    ∃ (inst : CnsUnregisterVolume) (pvName : String) (ups : List Entry)
      (e1 e2 : Option GoError) (rest : List Entry),
      calls = (opening request inst.Spec.PvcName pvName ++ ups ++
          [⟨.updateVolume ⟨pvName, .Retain⟩, none⟩]) ++
        ⟨.deleteClaim request.Namespace inst.Spec.PvcName, e1⟩ ::
          ⟨.deleteVolume pvName, e2⟩ :: rest ∧
      w.claims (request.Namespace, inst.Spec.PvcName) = some pvName ∧
      ((c = .deleteClaim request.Namespace inst.Spec.PvcName ∧ e1 = some err) ∨
        (c = .deleteVolume pvName ∧ e2 = some err ∧
          inst.Namespace = request.Namespace ∧ inst.Name = request.Name ∧
          w.instances (request.Namespace, request.Name) = some (inst.Spec, inst.Status) ∧
          ∃ s rest1,
            rest = ⟨.updateInstance { inst with Status := ⟨true, ""⟩ }, s⟩ :: rest1)) := by
  obtain ⟨res, wf, calls1, heq, ht, hp⟩ := Reconcile_path_eq w request
  rw [heq] at htrace
  simp only at htrace
  rw [ht] at htrace
  have hcalls : calls1 = calls := List.append_cancel_left htrace
  subst hcalls
  have hpre : ∀ {pvcName pvName : String} {ups : List Entry},
      (∀ e ∈ ups, e.call = .updateVolume ⟨pvName, .Retain⟩) →
      (⟨c, some err⟩ : Entry) ∉ opening request pvcName pvName ++ ups ++
        [⟨.updateVolume ⟨pvName, .Retain⟩, none⟩] := by
    intro pvcName pvName ups hups hin
    have := opening_no_delete hups _ hin
    rw [hdel] at this
    cases this
  cases hp with
  | instanceGone err1 w1 _ _ _ _ _ _ =>
    simp only [List.mem_singleton] at hmem
    cases hmem
    cases hdel
  | instanceGetFailed err1 w1 _ _ _ =>
    simp only [List.mem_singleton] at hmem
    cases hmem
    cases hdel
  | unregistered inst w1 _ _ _ _ _ _ _ =>
    simp only [List.mem_singleton] at hmem
    cases hmem
  | invalid inst e w1 _ _ _ _ _ _ _ _ _ _ =>
    simp only [List.mem_cons, List.mem_singleton, List.not_mem_nil, or_false] at hmem
    rcases hmem with h | h <;> cases h
    cases hdel
  | newClientFailed inst err1 e w1 _ _ _ _ _ _ =>
    simp only [List.mem_cons, List.mem_singleton, List.not_mem_nil, or_false] at hmem
    rcases hmem with h | h | h <;> cases h <;> cases hdel
  | getClaimFailed inst err1 w1 _ _ _ _ _ =>
    simp only [List.mem_cons, List.mem_singleton, List.not_mem_nil, or_false] at hmem
    rcases hmem with h | h | h <;> cases h
    cases hdel
  | getVolumeFailed inst pvName err1 w1 _ _ _ _ _ _ =>
    simp only [List.mem_cons, List.mem_singleton, List.not_mem_nil, or_false] at hmem
    rcases hmem with h | h | h | h <;> cases h
    cases hdel
  | retainFailed inst pvName ups err1 w1 _ _ _ hups _ _ _ =>
    have := opening_no_delete hups _ hmem
    rw [hdel] at this
    cases this
  | deleteClaimFailed inst pvName ups err1 w1 _ _ _ hups hnf1 _ _ _ =>
    have hshape : opening request inst.Spec.PvcName pvName ++ ups ++
        [⟨.updateVolume ⟨pvName, .Retain⟩, none⟩,
         ⟨.deleteClaim request.Namespace inst.Spec.PvcName, some err1⟩] =
        (opening request inst.Spec.PvcName pvName ++ ups ++
          [⟨.updateVolume ⟨pvName, .Retain⟩, none⟩]) ++
        [⟨.deleteClaim request.Namespace inst.Spec.PvcName, some err1⟩] := by simp
    rw [hshape] at hmem
    rcases List.mem_append.1 hmem with h | h
    · exact absurd h (hpre hups)
    · simp only [List.mem_singleton] at h
      cases h
      rw [hnf] at hnf1
      cases hnf1
  | deleteVolumeFailed inst pvName ups e1 err1 w1 _ _ hclaim hups _ hnf1 _ _ _ =>
    have hshape : opening request inst.Spec.PvcName pvName ++ ups ++
        [⟨.updateVolume ⟨pvName, .Retain⟩, none⟩,
         ⟨.deleteClaim request.Namespace inst.Spec.PvcName, e1⟩,
         ⟨.deleteVolume pvName, some err1⟩] =
        (opening request inst.Spec.PvcName pvName ++ ups ++
          [⟨.updateVolume ⟨pvName, .Retain⟩, none⟩]) ++
        ⟨.deleteClaim request.Namespace inst.Spec.PvcName, e1⟩ ::
          ⟨.deleteVolume pvName, some err1⟩ :: [] := by simp
    rw [hshape] at hmem ⊢
    rcases List.mem_append.1 hmem with h | h
    · exact absurd h (hpre hups)
    · simp only [List.mem_cons, List.mem_singleton, List.not_mem_nil, or_false] at h
      rcases h with h | h
      · cases h
        exact ⟨inst, pvName, ups, _, _, [], rfl, hclaim, Or.inl ⟨rfl, rfl⟩⟩
      · cases h
        rw [hnf] at hnf1
        cases hnf1
  | statusUpdateFailed inst pvName ups e1 e2 err1 e w1 hns hname _ _ hclaim hups _ _ _ hstore =>
    have hshape : opening request inst.Spec.PvcName pvName ++ ups ++
        [⟨.updateVolume ⟨pvName, .Retain⟩, none⟩,
         ⟨.deleteClaim request.Namespace inst.Spec.PvcName, e1⟩,
         ⟨.deleteVolume pvName, e2⟩,
         ⟨.updateInstance { inst with Status := ⟨true, ""⟩ }, some err1⟩,
         ⟨.updateInstance
            { inst with
              Status := ⟨true,
                "Failed to update CnsUnregistered instance with error: " ++ err1.Error⟩ },
          e⟩] =
        (opening request inst.Spec.PvcName pvName ++ ups ++
          [⟨.updateVolume ⟨pvName, .Retain⟩, none⟩]) ++
        ⟨.deleteClaim request.Namespace inst.Spec.PvcName, e1⟩ ::
          ⟨.deleteVolume pvName, e2⟩ ::
          [⟨.updateInstance { inst with Status := ⟨true, ""⟩ }, some err1⟩,
           ⟨.updateInstance
              { inst with
                Status := ⟨true,
                  "Failed to update CnsUnregistered instance with error: " ++ err1.Error⟩ },
            e⟩] := by simp
    rw [hshape] at hmem ⊢
    rcases List.mem_append.1 hmem with h | h
    · exact absurd h (hpre hups)
    · simp only [List.mem_cons, List.mem_singleton, List.not_mem_nil, or_false] at h
      rcases h with h | h | h | h
      · cases h
        exact ⟨inst, pvName, ups, _, _, _, rfl, hclaim, Or.inl ⟨rfl, rfl⟩⟩
      · cases h
        exact ⟨inst, pvName, ups, _, _, _, rfl, hclaim,
          Or.inr ⟨rfl, rfl, hns, hname, hstore, _, _, rfl⟩⟩
      · cases h
        cases hdel
      · cases h
        cases hdel
  | succeeded inst pvName ups e1 e2 w1 hns hname _ _ hclaim hups _ _ _ _ hstore =>
    have hshape : opening request inst.Spec.PvcName pvName ++ ups ++
        [⟨.updateVolume ⟨pvName, .Retain⟩, none⟩,
         ⟨.deleteClaim request.Namespace inst.Spec.PvcName, e1⟩,
         ⟨.deleteVolume pvName, e2⟩,
         ⟨.updateInstance { inst with Status := ⟨true, ""⟩ }, none⟩] =
        (opening request inst.Spec.PvcName pvName ++ ups ++
          [⟨.updateVolume ⟨pvName, .Retain⟩, none⟩]) ++
        ⟨.deleteClaim request.Namespace inst.Spec.PvcName, e1⟩ ::
          ⟨.deleteVolume pvName, e2⟩ ::
          [⟨.updateInstance { inst with Status := ⟨true, ""⟩ }, none⟩] := by simp
    rw [hshape] at hmem ⊢
    rcases List.mem_append.1 hmem with h | h
    · exact absurd h (hpre hups)
    · simp only [List.mem_cons, List.mem_singleton, List.not_mem_nil, or_false] at h
      rcases h with h | h | h
      · cases h
        exact ⟨inst, pvName, ups, _, _, _, rfl, hclaim, Or.inl ⟨rfl, rfl⟩⟩
      · cases h
        exact ⟨inst, pvName, ups, _, _, _, rfl, hclaim,
          Or.inr ⟨rfl, rfl, hns, hname, hstore, _, _, rfl⟩⟩
      · cases h

/-! # The claims -/

set_option maxRecDepth 100000

/-- Claim C1, what the code does.  When fetching the claim, fetching the
volume, or a claim or volume delete with an error other than not-found fails
in an execution of `Reconcile` (the failed call is among the calls of the
execution), `Reconcile` returns the empty result together with that error,
submits no status update, records no event, leaves the stored resources as
they were, and leaves the back-off delay of the key at the value it had on
entry (one second for an unseen key); no other key of the map changes.  Such
a call is only reached for a resource with a non-empty `pvcName` that is not
unregistered. -/
theorem Reconcile_step_failure (w : World) (request : NamespacedName) (c : Call)
    (err : GoError) (calls : List Entry)
    (htrace : (Reconcile w request).2.trace = w.trace ++ calls)
    (hfail : ⟨c, some err⟩ ∈ calls) (hstep : isStepFailure c err = true) :
    (Reconcile w request).1 = (Result.empty, some err) ∧
      (∀ e ∈ calls, ∀ inst, e.call ≠ .updateInstance inst) ∧
      (Reconcile w request).2.instances = w.instances ∧
      (Reconcile w request).2.events = w.events ∧
      (Reconcile w request).2.backOffDuration request.Name =
        some ((w.backOffDuration request.Name).getD Second) ∧
      ∀ k, k ≠ request.Name →
        (Reconcile w request).2.backOffDuration k = w.backOffDuration k := by
  obtain ⟨res, wf, calls1, heq, ht, hp⟩ := Reconcile_path_eq w request
  rw [heq] at htrace ⊢
  simp only at htrace ⊢
  rw [ht] at htrace
  have hcalls : calls1 = calls := List.append_cancel_left htrace
  subst hcalls
  have hseed : ∀ {m : String → Option Duration}, m = seeded w request.Name →
      m request.Name = some ((w.backOffDuration request.Name).getD Second) ∧
      ∀ k, k ≠ request.Name → m k = w.backOffDuration k := by
    intro m hm
    subst hm
    exact ⟨by simp [seeded], fun k hk => by simp [seeded, hk]⟩
  cases hp with
  | instanceGone err1 w1 _ _ _ _ _ _ =>
    simp only [List.mem_singleton] at hfail
    cases hfail
    cases hstep
  | instanceGetFailed err1 w1 _ _ _ =>
    simp only [List.mem_singleton] at hfail
    cases hfail
    cases hstep
  | unregistered inst w1 _ _ _ _ _ _ _ =>
    simp only [List.mem_singleton] at hfail
    cases hfail
  | invalid inst e w1 _ _ _ _ _ _ _ _ _ _ =>
    simp only [List.mem_cons, List.mem_singleton, List.not_mem_nil, or_false] at hfail
    rcases hfail with h | h <;> cases h
    cases hstep
  | newClientFailed inst err1 e w1 _ _ _ _ _ _ =>
    simp only [List.mem_cons, List.mem_singleton, List.not_mem_nil, or_false] at hfail
    rcases hfail with h | h | h <;> cases h <;> cases hstep
  | getClaimFailed inst err1 w1 _ _ hb he hi =>
    simp only [List.mem_cons, List.mem_singleton, List.not_mem_nil, or_false] at hfail
    rcases hfail with h | h | h <;> cases h
    refine ⟨rfl, ?_, hi, he, hseed hb⟩
    intro e he inst1
    simp only [List.mem_cons, List.mem_singleton, List.not_mem_nil, or_false] at he
    rcases he with rfl | rfl | rfl <;> simp
  | getVolumeFailed inst pvName err1 w1 _ _ _ hb he hi =>
    simp only [List.mem_cons, List.mem_singleton, List.not_mem_nil, or_false] at hfail
    rcases hfail with h | h | h | h <;> cases h
    refine ⟨rfl, ?_, hi, he, hseed hb⟩
    intro e he inst1
    simp only [List.mem_cons, List.mem_singleton, List.not_mem_nil, or_false] at he
    rcases he with rfl | rfl | rfl | rfl <;> simp
  | retainFailed inst pvName ups err1 w1 _ _ _ hups _ _ _ =>
    exact absurd hfail (opening_mem hups hstep)
  | deleteClaimFailed inst pvName ups err1 w1 _ _ _ hups hnf hb he hi =>
    rcases List.mem_append.1 hfail with h | h
    · exact absurd h (opening_ups_mem hups hstep)
    · simp only [List.mem_cons, List.mem_singleton, List.not_mem_nil, or_false] at h
      rcases h with h | h <;> cases h
      refine ⟨rfl, ?_, hi, he, hseed hb⟩
      intro e he inst1
      rcases List.mem_append.1 he with h | h
      · exact opening_ups_not_status hups e h inst1
      · simp only [List.mem_cons, List.mem_singleton, List.not_mem_nil, or_false] at h
        rcases h with rfl | rfl <;> simp
  | deleteVolumeFailed inst pvName ups e1 err1 w1 _ _ _ hups htol hnf hb he hi =>
    rcases List.mem_append.1 hfail with h | h
    · exact absurd h (opening_ups_mem hups hstep)
    · simp only [List.mem_cons, List.mem_singleton, List.not_mem_nil, or_false] at h
      rcases h with h | h | h
      · cases h
      · cases h
        have : IsNotFound err = true := htol
        simp [isStepFailure, this] at hstep
      · cases h
        refine ⟨rfl, ?_, hi, he, hseed hb⟩
        intro e he inst1
        rcases List.mem_append.1 he with h | h
        · exact opening_ups_not_status hups e h inst1
        · simp only [List.mem_cons, List.mem_singleton, List.not_mem_nil, or_false] at h
          rcases h with rfl | rfl | rfl <;> simp
  | statusUpdateFailed inst pvName ups e1 e2 err1 e w1 _ _ _ _ _ hups htol1 htol2 _ =>
    rcases List.mem_append.1 hfail with h | h
    · exact absurd h (opening_ups_mem hups hstep)
    · simp only [List.mem_cons, List.mem_singleton, List.not_mem_nil, or_false] at h
      rcases h with h | h | h | h | h
      · cases h
      · cases h
        have : IsNotFound err = true := htol1
        simp [isStepFailure, this] at hstep
      · cases h
        have : IsNotFound err = true := htol2
        simp [isStepFailure, this] at hstep
      · cases h
        cases hstep
      · cases h
        cases hstep
  | succeeded inst pvName ups e1 e2 w1 _ _ _ _ _ hups htol1 htol2 _ _ =>
    rcases List.mem_append.1 hfail with h | h
    · exact absurd h (opening_ups_mem hups hstep)
    · simp only [List.mem_cons, List.mem_singleton, List.not_mem_nil, or_false] at h
      rcases h with h | h | h | h
      · cases h
      · cases h
        have : IsNotFound err = true := htol1
        simp [isStepFailure, this] at hstep
      · cases h
        have : IsNotFound err = true := htol2
        simp [isStepFailure, this] at hstep
      · cases h

/-- Witness of claim C1 at its failing input: in the example scenario without
the claim `pvc1`, fetching the claim fails, and `Reconcile` returns the
not-found error to its caller with a zero requeue delay, submits no status
update (the stored status keeps an empty error) and leaves the back-off delay
at one second instead of doubling it. -/
theorem Reconcile_step_failure_witness :
    (Reconcile claimMissingWorld exampleKey).2.trace = claimMissingWorld.trace ++
        [⟨.getInstance exampleKey, none⟩, ⟨.newClient, none⟩,
         ⟨.getClaim "team-a" "pvc1", some (.notFound notFoundMsg)⟩] ∧
      (Reconcile claimMissingWorld exampleKey).1 =
        (Result.empty, some (.notFound notFoundMsg)) ∧
      (Reconcile claimMissingWorld exampleKey).1.1.RequeueAfter = 0 ∧
      (Reconcile claimMissingWorld exampleKey).2.instances ("team-a", "vol1") =
        some (⟨"pvc1"⟩, ⟨false, ""⟩) ∧
      (Reconcile claimMissingWorld exampleKey).2.backOffDuration exampleKey.Name =
        some ((claimMissingWorld.backOffDuration exampleKey.Name).getD Second) ∧
      (Reconcile claimMissingWorld exampleKey).2.backOffDuration "vol1" = some Second ∧
      (Reconcile claimMissingWorld exampleKey).2.backOffDuration "vol1" ≠
        some (2 * Second) :=
  have h := Reconcile_step_failure claimMissingWorld exampleKey (.getClaim "team-a" "pvc1")
    (.notFound notFoundMsg)
    [⟨.getInstance exampleKey, none⟩, ⟨.newClient, none⟩,
     ⟨.getClaim "team-a" "pvc1", some (.notFound notFoundMsg)⟩]
    (by decide) (by decide) (by decide)
  ⟨by decide, h.1, by decide, by decide, h.2.2.2.2.1, by decide, by decide⟩

/-- Claim C2 at its failing input.  An uninterrupted run on the example
scenario reaches the terminal state (unregistered, no error, claim and volume
absent), and so does a second run after a first attempt that stopped after the
retain update.  After a first attempt that stopped after the claim delete, or
after the volume delete, the second fault-free run does not: fetching the
claim returns not-found, `Reconcile` returns that error, the stored status
stays `unregistered = false`, and in the first case the volume is still
there. -/
theorem resume_after_delete_returns_not_found :
    ((Reconcile exampleWorld exampleKey).1 = (Result.empty, none) ∧
      (Reconcile exampleWorld exampleKey).2.instances ("team-a", "vol1") =
        some (⟨"pvc1"⟩, ⟨true, ""⟩) ∧
      (Reconcile exampleWorld exampleKey).2.claims ("team-a", "pvc1") = none ∧
      (Reconcile exampleWorld exampleKey).2.volumes "pv-123" = none) ∧
    ((interruptedWorld 5).volumes "pv-123" = some .Retain ∧
      (interruptedWorld 5).claims ("team-a", "pvc1") = some "pv-123" ∧
      (Reconcile (interruptedWorld 5) exampleKey).1 = (Result.empty, none) ∧
      (Reconcile (interruptedWorld 5) exampleKey).2.instances ("team-a", "vol1") =
        some (⟨"pvc1"⟩, ⟨true, ""⟩) ∧
      (Reconcile (interruptedWorld 5) exampleKey).2.claims ("team-a", "pvc1") = none ∧
      (Reconcile (interruptedWorld 5) exampleKey).2.volumes "pv-123" = none) ∧
    ((interruptedWorld 6).claims ("team-a", "pvc1") = none ∧
      (interruptedWorld 6).volumes "pv-123" = some .Retain ∧
      (Reconcile (interruptedWorld 6) exampleKey).1 =
        (Result.empty, some (.notFound notFoundMsg)) ∧
      (Reconcile (interruptedWorld 6) exampleKey).2.instances ("team-a", "vol1") =
        some (⟨"pvc1"⟩, ⟨false, ""⟩) ∧
      (Reconcile (interruptedWorld 6) exampleKey).2.volumes "pv-123" = some .Retain) ∧
    ((interruptedWorld 7).claims ("team-a", "pvc1") = none ∧
      (interruptedWorld 7).volumes "pv-123" = none ∧
      (Reconcile (interruptedWorld 7) exampleKey).1 =
        (Result.empty, some (.notFound notFoundMsg)) ∧
      (Reconcile (interruptedWorld 7) exampleKey).2.instances ("team-a", "vol1") =
        some (⟨"pvc1"⟩, ⟨false, ""⟩)) := by
  decide

/-- Claim C3, what the code does.  When the last API call of an execution of
`Reconcile` is a failed update of the volume (the conflict-retry loop returned
a non-nil error), `Reconcile` returns the empty result with a nil error: the
attempt is reported as done. -/
theorem Reconcile_retain_failure_reported_done (w : World) (request : NamespacedName)
    (pv : PersistentVolume) (err : GoError) (calls : List Entry)
    (htrace : (Reconcile w request).2.trace =
      w.trace ++ calls ++ [⟨.updateVolume pv, some err⟩]) :
    (Reconcile w request).1 = (Result.empty, none) := by
  obtain ⟨res, wf, calls1, heq, ht, hp⟩ := Reconcile_path_eq w request
  rw [heq] at htrace ⊢
  simp only at htrace ⊢
  rw [ht, List.append_assoc] at htrace
  have hcalls : calls1 = calls ++ [⟨.updateVolume pv, some err⟩] :=
    List.append_cancel_left htrace
  have hlast : calls1.getLast? = some ⟨.updateVolume pv, some err⟩ := by
    rw [hcalls]; simp
  cases hp with
  | instanceGone err1 w1 _ _ _ _ _ _ => rfl
  | instanceGetFailed err1 w1 _ _ _ => simp at hlast
  | unregistered inst w1 _ _ _ _ _ _ _ => rfl
  | invalid inst e w1 _ _ _ _ _ _ _ _ _ _ => simp at hlast
  | newClientFailed inst err1 e w1 _ _ _ _ _ _ => simp at hlast
  | getClaimFailed inst err1 w1 _ _ hb he hi => simp at hlast
  | getVolumeFailed inst pvName err1 w1 _ _ _ hb he hi => simp at hlast
  | retainFailed inst pvName ups err1 w1 _ _ _ hups _ _ _ => rfl
  | deleteClaimFailed inst pvName ups err1 w1 _ _ _ hups hnf hb he hi => simp at hlast
  | deleteVolumeFailed inst pvName ups e1 err1 w1 _ _ _ hups htol hnf hb he hi =>
    simp at hlast
  | statusUpdateFailed inst pvName ups e1 e2 err1 e w1 _ _ _ _ _ hups htol1 htol2 _ =>
    simp at hlast
  | succeeded inst pvName ups e1 e2 w1 _ _ _ _ _ hups htol1 htol2 _ _ => rfl

/-- Witness of claim C3 at its failing input: in the example scenario every
update of `pv-123` returns a conflict, the loop gives up after five calls, and
`Reconcile` returns the empty result with a nil error. -/
theorem Reconcile_retain_failure_reported_done_witness :
    (Reconcile conflictWorld exampleKey).2.trace = conflictWorld.trace ++
        (opening exampleKey "pvc1" "pv-123" ++
          List.replicate 4 ⟨.updateVolume ⟨"pv-123", .Retain⟩, some (.conflict "conflict")⟩) ++
        [⟨.updateVolume ⟨"pv-123", .Retain⟩, some (.conflict "conflict")⟩] ∧
      (Reconcile conflictWorld exampleKey).1 = (Result.empty, none) :=
  ⟨by decide,
    Reconcile_retain_failure_reported_done conflictWorld exampleKey ⟨"pv-123", .Retain⟩
      (.conflict "conflict")
      (opening exampleKey "pvc1" "pv-123" ++
        List.replicate 4 ⟨.updateVolume ⟨"pv-123", .Retain⟩, some (.conflict "conflict")⟩)
      (by decide)⟩

/-- Claim C4 (protect before delete).  In every execution of `Reconcile`, split
the calls of the execution at any delete call `d`: if `d` deletes the volume
`name`, a successful update that sets the reclaim policy of `name` to Retain
is among the calls before it; if `d` deletes the claim `ns/claim`, the claim
is bound to a volume `name` and a successful update that sets the reclaim
policy of `name` to Retain is among the calls before it. -/
theorem Reconcile_protect_before_delete (w : World) (request : NamespacedName)
    (before after : List Entry) (d : Entry)
    (hsplit : (Reconcile w request).2.trace = w.trace ++ before ++ d :: after) :
    (∀ name, d.call = .deleteVolume name →
      ⟨.updateVolume ⟨name, .Retain⟩, none⟩ ∈ before) ∧
    (∀ ns claim, d.call = .deleteClaim ns claim →
      ∃ name, w.claims (ns, claim) = some name ∧
        ⟨.updateVolume ⟨name, .Retain⟩, none⟩ ∈ before) := by
  obtain ⟨res, wf, calls, heq, ht, hp⟩ := Reconcile_path_eq w request
  rw [heq] at hsplit
  simp only at hsplit
  rw [ht, List.append_assoc] at hsplit
  have hcalls : calls = before ++ d :: after := List.append_cancel_left hsplit
  have hmem : d ∈ calls := by rw [hcalls]; simp
  -- the paths that reach a delete
  have key : ∀ (inst : CnsUnregisterVolume) (pvName : String) (ups rest : List Entry),
      w.claims (request.Namespace, inst.Spec.PvcName) = some pvName →
      (∀ e ∈ ups, e.call = .updateVolume ⟨pvName, .Retain⟩) →
      calls = (opening request inst.Spec.PvcName pvName ++ ups ++
        [⟨.updateVolume ⟨pvName, .Retain⟩, none⟩]) ++ rest →
      (∀ e ∈ rest, e.call.isDelete = true →
        e.call = .deleteClaim request.Namespace inst.Spec.PvcName ∨
        e.call = .deleteVolume pvName) →
      d.call.isDelete = true →
      ⟨.updateVolume ⟨pvName, .Retain⟩, none⟩ ∈ before ∧
        (d.call = .deleteClaim request.Namespace inst.Spec.PvcName ∨
          d.call = .deleteVolume pvName) := by
    intro inst pvName ups rest hclaim hups hshape hrest hdel
    have hd : d ∉ opening request inst.Spec.PvcName pvName ++ ups ++
        [⟨.updateVolume ⟨pvName, .Retain⟩, none⟩] := by
      intro hin
      have := opening_no_delete hups d hin
      rw [hdel] at this
      cases this
    obtain ⟨h1, h2⟩ := mem_before_of_split (hshape.symm.trans hcalls) hd
    exact ⟨h1 _ (by simp), hrest d h2 hdel⟩
  have main : d.call.isDelete = true →
      ∃ (pvcName pvName : String), w.claims (request.Namespace, pvcName) = some pvName ∧
        ⟨.updateVolume ⟨pvName, .Retain⟩, none⟩ ∈ before ∧
        (d.call = .deleteClaim request.Namespace pvcName ∨ d.call = .deleteVolume pvName) := by
    intro hdel
    cases hp with
    | instanceGone err w1 _ _ _ _ _ _ =>
      simp only [List.mem_singleton] at hmem
      subst hmem
      cases hdel
    | instanceGetFailed err w1 _ _ _ =>
      simp only [List.mem_singleton] at hmem
      subst hmem
      cases hdel
    | unregistered inst w1 _ _ _ _ _ _ _ =>
      simp only [List.mem_singleton] at hmem
      subst hmem
      cases hdel
    | invalid inst e w1 _ _ _ _ _ _ _ _ _ _ =>
      simp only [List.mem_cons, List.mem_singleton, List.not_mem_nil, or_false] at hmem
      rcases hmem with rfl | rfl <;> cases hdel
    | newClientFailed inst err e w1 _ _ _ _ _ _ =>
      simp only [List.mem_cons, List.mem_singleton, List.not_mem_nil, or_false] at hmem
      rcases hmem with rfl | rfl | rfl <;> cases hdel
    | getClaimFailed inst err w1 _ _ _ _ _ =>
      simp only [List.mem_cons, List.mem_singleton, List.not_mem_nil, or_false] at hmem
      rcases hmem with rfl | rfl | rfl <;> cases hdel
    | getVolumeFailed inst pvName err w1 _ _ _ _ _ _ =>
      simp only [List.mem_cons, List.mem_singleton, List.not_mem_nil, or_false] at hmem
      rcases hmem with rfl | rfl | rfl | rfl <;> cases hdel
    | retainFailed inst pvName ups err w1 _ _ _ hups _ _ _ =>
      have := opening_no_delete hups d hmem
      rw [hdel] at this
      cases this
    | deleteClaimFailed inst pvName ups err w1 _ _ hclaim hups _ _ _ _ =>
      obtain ⟨h1, h2⟩ := key inst pvName ups
        [⟨.deleteClaim request.Namespace inst.Spec.PvcName, some err⟩] hclaim hups (by simp)
        (by intro e he _; simp only [List.mem_singleton] at he; subst he; exact Or.inl rfl) hdel
      exact ⟨_, _, hclaim, h1, h2⟩
    | deleteVolumeFailed inst pvName ups e1 err w1 _ _ hclaim hups _ _ _ _ _ =>
      obtain ⟨h1, h2⟩ := key inst pvName ups
        [⟨.deleteClaim request.Namespace inst.Spec.PvcName, e1⟩,
         ⟨.deleteVolume pvName, some err⟩] hclaim hups (by simp)
        (by
          intro e he _
          simp only [List.mem_cons, List.mem_singleton, List.not_mem_nil, or_false] at he
          rcases he with rfl | rfl
          · exact Or.inl rfl
          · exact Or.inr rfl) hdel
      exact ⟨_, _, hclaim, h1, h2⟩
    | statusUpdateFailed inst pvName ups e1 e2 err e w1 _ _ _ _ hclaim hups _ _ _ =>
      obtain ⟨h1, h2⟩ := key inst pvName ups
        [⟨.deleteClaim request.Namespace inst.Spec.PvcName, e1⟩,
         ⟨.deleteVolume pvName, e2⟩,
         ⟨.updateInstance { inst with Status := ⟨true, ""⟩ }, some err⟩,
         ⟨.updateInstance
            { inst with
              Status := ⟨true,
                "Failed to update CnsUnregistered instance with error: " ++ err.Error⟩ },
          e⟩] hclaim hups (by simp)
        (by
          intro x he hx
          simp only [List.mem_cons, List.mem_singleton, List.not_mem_nil, or_false] at he
          rcases he with rfl | rfl | rfl | rfl
          · exact Or.inl rfl
          · exact Or.inr rfl
          · cases hx
          · cases hx) hdel
      exact ⟨_, _, hclaim, h1, h2⟩
    | succeeded inst pvName ups e1 e2 w1 _ _ _ _ hclaim hups _ _ _ _ =>
      obtain ⟨h1, h2⟩ := key inst pvName ups
        [⟨.deleteClaim request.Namespace inst.Spec.PvcName, e1⟩,
         ⟨.deleteVolume pvName, e2⟩,
         ⟨.updateInstance { inst with Status := ⟨true, ""⟩ }, none⟩] hclaim hups (by simp)
        (by
          intro x he hx
          simp only [List.mem_cons, List.mem_singleton, List.not_mem_nil, or_false] at he
          rcases he with rfl | rfl | rfl
          · exact Or.inl rfl
          · exact Or.inr rfl
          · cases hx) hdel
      exact ⟨_, _, hclaim, h1, h2⟩
  constructor
  · intro name hd
    obtain ⟨pvcName, pvName, -, hb, h | h⟩ := main (by rw [hd]; rfl)
    · rw [hd] at h; cases h
    · rw [hd] at h; cases h; exact hb
  · intro ns claim hd
    obtain ⟨pvcName, pvName, hclaim, hb, h | h⟩ := main (by rw [hd]; rfl)
    · rw [hd] at h; cases h; exact ⟨pvName, hclaim, hb⟩
    · rw [hd] at h; cases h

/-- Witness of claim C4: the example scenario, split at the delete of the
volume `pv-123`. -/
theorem Reconcile_protect_before_delete_witness :
    (Reconcile exampleWorld exampleKey).2.trace = exampleWorld.trace ++
        (opening exampleKey "pvc1" "pv-123" ++
          [⟨.updateVolume ⟨"pv-123", .Retain⟩, none⟩, ⟨.deleteClaim "team-a" "pvc1", none⟩]) ++
        ⟨.deleteVolume "pv-123", none⟩ ::
          [⟨.updateInstance ⟨"team-a", "vol1", ⟨"pvc1"⟩, ⟨true, ""⟩⟩, none⟩] ∧
      (⟨.updateVolume ⟨"pv-123", .Retain⟩, none⟩ : Entry) ∈
        opening exampleKey "pvc1" "pv-123" ++
          [⟨.updateVolume ⟨"pv-123", .Retain⟩, none⟩, ⟨.deleteClaim "team-a" "pvc1", none⟩] :=
  ⟨by decide,
    (Reconcile_protect_before_delete exampleWorld exampleKey
      (opening exampleKey "pvc1" "pv-123" ++
        [⟨.updateVolume ⟨"pv-123", .Retain⟩, none⟩, ⟨.deleteClaim "team-a" "pvc1", none⟩])
      [⟨.updateInstance ⟨"team-a", "vol1", ⟨"pvc1"⟩, ⟨true, ""⟩⟩, none⟩]
      ⟨.deleteVolume "pv-123", none⟩ (by decide)).1 "pv-123" rfl⟩

/-- Claim C5, as the code has it.  Starting from a key that is absent from
the back-off map, after `n ≥ 1` consecutive attempts that each fail
validation the delay stored for the key is `1 second * 2 ^ n` wrapped to a
signed 64-bit integer, which is `1 second * 2 ^ n` itself for `n ≤ 33`. -/
theorem backOff_after_validation_failures (request : NamespacedName) (n : Nat) (w : World)
    (hn : 1 ≤ n) (habsent : w.backOffDuration request.Name = none)
    (hfail : validationFailures request n w = true) :
    (reconcileN request n w).backOffDuration request.Name =
        some (wrapInt64 (Second * 2 ^ n)) ∧
      (n ≤ 33 → (reconcileN request n w).backOffDuration request.Name =
        some (Second * 2 ^ n)) := by
  obtain ⟨m, rfl⟩ : ∃ m, n = m + 1 := ⟨n - 1, by omega⟩
  have h := reconcileN_backOff request m w hfail
  rw [habsent] at h
  simp only [Option.getD_none] at h
  refine ⟨h, fun hle => ?_⟩
  rw [h, wrapInt64_of_bounds]
  · have : (0 : Int) ≤ Second * 2 ^ (m + 1) := by unfold Second; positivity
    omega
  · have h2 : (2 : Int) ^ (m + 1) ≤ 2 ^ 33 := pow_le_pow_right₀ (by norm_num) hle
    have : Second * 2 ^ (m + 1) ≤ Second * 2 ^ 33 :=
      mul_le_mul_of_nonneg_left h2 (by unfold Second; norm_num)
    calc Second * 2 ^ (m + 1) ≤ Second * 2 ^ 33 := this
      _ < 2 ^ 63 := by unfold Second; norm_num

/-- Witness of claim C5 as amended: two validation failures of `team-a/vol1`
leave a stored delay of four seconds. -/
theorem backOff_after_validation_failures_witness :
    1 ≤ 2 ∧ invalidWorld.backOffDuration exampleKey.Name = none ∧
      validationFailures exampleKey 2 invalidWorld = true ∧
      (reconcileN exampleKey 2 invalidWorld).backOffDuration exampleKey.Name =
        some (wrapInt64 (Second * 2 ^ 2)) ∧
      (reconcileN exampleKey 2 invalidWorld).backOffDuration exampleKey.Name =
        some (Second * 2 ^ 2) :=
  have h := backOff_after_validation_failures exampleKey 2 invalidWorld (by decide)
    (by decide) (by decide)
  ⟨by decide, by decide, by decide, h.1, h.2 (by decide)⟩

/-- Counterexample to claim C5 as stated: after 34 consecutive validation
failures of `team-a/vol1`, starting from an absent key, the stored delay is
the negative duration `-1266874889709551616` ns, not `1 second * 2 ^ 34`; and
after 0 attempts nothing is stored for the key. -/
theorem backOff_after_validation_failures_counterexample :
    invalidWorld.backOffDuration exampleKey.Name = none ∧
      validationFailures exampleKey 34 invalidWorld = true ∧
      (reconcileN exampleKey 34 invalidWorld).backOffDuration exampleKey.Name =
        some (-1266874889709551616) ∧
      (reconcileN exampleKey 34 invalidWorld).backOffDuration exampleKey.Name ≠
        some (Second * 2 ^ 34) ∧
      (reconcileN exampleKey 0 invalidWorld).backOffDuration exampleKey.Name ≠
        some (Second * 2 ^ 0) := by
  decide

/-- Claim C6 (validation gate).  For every resource that is read with an empty
`spec.pvcName` and `status.unregistered = false`, and every back-off map,
`Reconcile` returns a nil error with `RequeueAfter` equal to the delay the key
had on entry (one second for an unseen key); its only API calls are the read
of the resource and one status update that submits the fixed message
`Pvc name not specified in the spec`, so no claim or volume call is issued and
the claim and volume stores are unchanged; the resource is still stored
afterwards, with the fixed message as its error when the update succeeded. -/
theorem Reconcile_validation_gate (w : World) (request : NamespacedName)
    (inst : CnsUnregisterVolume) (hget : (clientGet w request).1 = .ok inst)
    (hpvc : inst.Spec.PvcName = "") (hu : inst.Status.Unregistered = false) :
    (Reconcile w request).1 =
        (⟨false, (w.backOffDuration request.Name).getD Second⟩, none) ∧
      (∃ e, (Reconcile w request).2.trace = w.trace ++
          [⟨.getInstance request, none⟩,
           ⟨.updateInstance
              { inst with Status := ⟨false, "Pvc name not specified in the spec"⟩ }, e⟩] ∧
        (Reconcile w request).2.instances (request.Namespace, request.Name) =
          some (inst.Spec,
            if e = none then ⟨false, "Pvc name not specified in the spec"⟩ else inst.Status)) ∧
      (Reconcile w request).2.claims = w.claims ∧
      (Reconcile w request).2.volumes = w.volumes := by
  obtain ⟨-, hns, hname, hstore, -⟩ := clientGet_ok_inv (clientGet_fst_ok hget)
  obtain ⟨w2, ht2, -, -, hi2, hc2, hv2, -, heq⟩ := Reconcile_invalid_eq hget hpvc hu
  obtain ⟨e, hte, -, -, hie, hce, hve⟩ :=
    setInstanceError_spec w2 inst "Pvc name not specified in the spec"
  rw [heq]
  refine ⟨rfl, ⟨e, ?_, ?_⟩, ?_, ?_⟩
  · show (setInstanceError w2 inst _).2.trace = _
    rw [hte, ht2]
    simp [hu]
  · show (setInstanceError w2 inst _).2.instances _ = _
    rw [hie, hi2]
    by_cases he : e = none
    · simp [he, hns, hname, hu]
    · simp [he, hstore]
  · show (setInstanceError w2 inst _).2.claims = _
    rw [hce, hc2]
  · show (setInstanceError w2 inst _).2.volumes = _
    rw [hve, hv2]

/-- Witness of claim C6: `team-a/vol1` with an empty `spec.pvcName` and an
unseen key is requeued after one second. -/
theorem Reconcile_validation_gate_witness :
    (clientGet invalidWorld exampleKey).1 = .ok ⟨"team-a", "vol1", ⟨""⟩, ⟨false, ""⟩⟩ ∧
      (Reconcile invalidWorld exampleKey).1 = (⟨false, Second⟩, none) :=
  ⟨rfl,
    (Reconcile_validation_gate invalidWorld exampleKey ⟨"team-a", "vol1", ⟨""⟩, ⟨false, ""⟩⟩
      rfl rfl rfl).1⟩

/-- Claim C7 (successful unregistration).  For every resource with a non-empty
`pvcName` and `status.unregistered = false` whose claim exists and is bound to
an existing volume, when no API call fails, `Reconcile` returns the empty
result with a nil error, the stored status is `unregistered = true` with an
empty error, the claim and the volume are gone from their stores, the key is
absent from the back-off map, and the calls issued are, in order: read the
resource, create the client, get the claim, get the volume, set the reclaim
policy to Retain, delete the claim, delete the volume, update the status. -/
theorem Reconcile_success (w : World) (request : NamespacedName) (pvcName pvName e0 : String)
    (policy : ReclaimPolicy)
    (hinst : w.instances (request.Namespace, request.Name) = some (⟨pvcName⟩, ⟨false, e0⟩))
    (hpvc : pvcName ≠ "")
    (hclaim : w.claims (request.Namespace, pvcName) = some pvName)
    (hvol : w.volumes pvName = some policy)
    (hfaults : ∀ i, w.faults i = none) :
    (Reconcile w request).1 = (Result.empty, none) ∧
      (Reconcile w request).2.instances (request.Namespace, request.Name) =
        some (⟨pvcName⟩, ⟨true, ""⟩) ∧
      (Reconcile w request).2.claims (request.Namespace, pvcName) = none ∧
      (Reconcile w request).2.volumes pvName = none ∧
      (Reconcile w request).2.backOffDuration request.Name = none ∧
      (Reconcile w request).2.trace = w.trace ++
        [⟨.getInstance request, none⟩, ⟨.newClient, none⟩,
         ⟨.getClaim request.Namespace pvcName, none⟩, ⟨.getVolume pvName, none⟩,
         ⟨.updateVolume ⟨pvName, .Retain⟩, none⟩,
         ⟨.deleteClaim request.Namespace pvcName, none⟩, ⟨.deleteVolume pvName, none⟩,
         ⟨.updateInstance ⟨request.Namespace, request.Name, ⟨pvcName⟩, ⟨true, ""⟩⟩, none⟩] := by
  have hv : validateCnsUnregisterVolumeSpec ⟨request.Namespace, request.Name, ⟨pvcName⟩,
      ⟨false, e0⟩⟩ = none := by
    simp [validateCnsUnregisterVolumeSpec, hpvc]
  have h5 : DefaultRetrySteps = 4 + 1 := rfl
  cases hb : w.backOffDuration request.Name <;>
  simp [Reconcile, reconcileTail, reconcileEnd, clientGet, World.fault, World.record, hfaults,
    hinst, hv, hb, NewClient, getClaim, getVolume, hclaim, hvol, RetryOnConflict, h5, OnError,
    updateVolume, deleteClaim, deleteVolume, setInstanceSuccess, updateCnsUnregisterVolume,
    clientUpdate, recordEvent, EventTypeNormal, EventTypeWarning, World.setBackOff,
    World.deleteBackOff, World.getBackOff, Result.empty]

/-- Witness of claim C7: the example scenario, `team-a/vol1` with `pvc1` bound
to `pv-123`. -/
theorem Reconcile_success_witness :
    (Reconcile exampleWorld exampleKey).1 = (Result.empty, none) ∧
      (Reconcile exampleWorld exampleKey).2.instances ("team-a", "vol1") =
        some (⟨"pvc1"⟩, ⟨true, ""⟩) ∧
      (Reconcile exampleWorld exampleKey).2.claims ("team-a", "pvc1") = none ∧
      (Reconcile exampleWorld exampleKey).2.volumes "pv-123" = none ∧
      (Reconcile exampleWorld exampleKey).2.backOffDuration "vol1" = none :=
  have h := Reconcile_success exampleWorld exampleKey "pvc1" "pv-123" "" .Delete
    (by decide) (by decide) (by decide) (by decide) (fun _ => rfl)
  ⟨h.1, h.2.1, h.2.2.1, h.2.2.2.1, h.2.2.2.2.1⟩

/-- Claim C8 (not-found short-circuit).  For every key whose read returns
not-found, `Reconcile` returns the empty result with a nil error and has no
side effect: the back-off map, the three stores and the recorded events are
unchanged, and the read of the resource is the only API call. -/
theorem Reconcile_instance_not_found (w : World) (request : NamespacedName) (err : GoError)
    (hget : (clientGet w request).1 = .error err) (hnf : IsNotFound err = true) :
    (Reconcile w request).1 = (Result.empty, none) ∧
      (Reconcile w request).2.backOffDuration = w.backOffDuration ∧
      (Reconcile w request).2.instances = w.instances ∧
      (Reconcile w request).2.claims = w.claims ∧
      (Reconcile w request).2.volumes = w.volumes ∧
      (Reconcile w request).2.events = w.events ∧
      (Reconcile w request).2.trace = w.trace ++ [⟨.getInstance request, some err⟩] := by
  have h := clientGet_fst_error hget
  unfold Reconcile
  rw [h]
  simp [hnf, World.record]

/-- Witness of claim C8: the key `team-a/gone` in the example scenario. -/
theorem Reconcile_instance_not_found_witness :
    (clientGet exampleWorld ⟨"team-a", "gone"⟩).1 = .error (.notFound notFoundMsg) ∧
      (Reconcile exampleWorld ⟨"team-a", "gone"⟩).1 = (Result.empty, none) ∧
      (Reconcile exampleWorld ⟨"team-a", "gone"⟩).2.backOffDuration =
        exampleWorld.backOffDuration :=
  have h := Reconcile_instance_not_found exampleWorld ⟨"team-a", "gone"⟩
    (.notFound notFoundMsg) rfl rfl
  ⟨rfl, h.1, h.2.1⟩

/-- Claim C9 (terminal state).  For every resource that is read with
`status.unregistered = true` and every back-off map, `Reconcile` returns the
empty result with a nil error, its only API call is the read of the resource
(no claim or volume call, no status update), the three stores and the events
are unchanged, the key is absent from the back-off map afterwards and no other
key of the map changes. -/
theorem Reconcile_already_unregistered (w : World) (request : NamespacedName)
    (inst : CnsUnregisterVolume)
    (hget : (clientGet w request).1 = .ok inst) (hu : inst.Status.Unregistered = true) :
    (Reconcile w request).1 = (Result.empty, none) ∧
      (Reconcile w request).2.trace = w.trace ++ [⟨.getInstance request, none⟩] ∧
      (Reconcile w request).2.instances = w.instances ∧
      (Reconcile w request).2.claims = w.claims ∧
      (Reconcile w request).2.volumes = w.volumes ∧
      (Reconcile w request).2.events = w.events ∧
      (Reconcile w request).2.backOffDuration request.Name = none ∧
      ∀ k, k ≠ request.Name →
        (Reconcile w request).2.backOffDuration k = w.backOffDuration k := by
  have h := clientGet_fst_ok hget
  obtain ⟨-, -, hname, -, -⟩ := clientGet_ok_inv h
  unfold Reconcile
  rw [h]
  simp only [hu, if_true]
  split <;> simp [World.deleteBackOff, World.setBackOff, World.record, hname]
  all_goals intro k hk; simp [hk]

/-- Witness of claim C9: a second reconciliation of `team-a/vol1` after the
successful first one. -/
theorem Reconcile_already_unregistered_witness :
    (clientGet (Reconcile exampleWorld exampleKey).2 exampleKey).1 =
        .ok ⟨"team-a", "vol1", ⟨"pvc1"⟩, ⟨true, ""⟩⟩ ∧
      (Reconcile (Reconcile exampleWorld exampleKey).2 exampleKey).1 = (Result.empty, none) ∧
      (Reconcile (Reconcile exampleWorld exampleKey).2 exampleKey).2.backOffDuration
        exampleKey.Name = none :=
  have h := Reconcile_already_unregistered (Reconcile exampleWorld exampleKey).2 exampleKey
    ⟨"team-a", "vol1", ⟨"pvc1"⟩, ⟨true, ""⟩⟩ rfl rfl
  ⟨rfl, h.1, h.2.2.2.2.2.2.1⟩

/-- Claim C10 at its failing input.  `team-a/vol1` and `team-b/vol1` have
different keys and share the back-off entry `vol1`.  Reconciled alone,
`team-b/vol1` fails validation and is requeued after one second, with two
seconds stored; reconciled after one failed attempt on `team-a/vol1`, it is
requeued after two seconds, with four seconds stored.  The failure of
`team-a/vol1` alone already stores two seconds under the name that
`team-b/vol1` reads. -/
theorem backOff_shared_across_namespaces :
    ((⟨"team-a", "vol1"⟩ : NamespacedName) ≠ ⟨"team-b", "vol1"⟩) ∧
    (Reconcile invalidWorld ⟨"team-b", "vol1"⟩).1 = (⟨false, Second⟩, none) ∧
    (Reconcile invalidWorld ⟨"team-b", "vol1"⟩).2.backOffDuration "vol1" =
      some (2 * Second) ∧
    (Reconcile invalidWorld ⟨"team-a", "vol1"⟩).1 = (⟨false, Second⟩, none) ∧
    (Reconcile invalidWorld ⟨"team-a", "vol1"⟩).2.backOffDuration "vol1" =
      some (2 * Second) ∧
    (Reconcile (Reconcile invalidWorld ⟨"team-a", "vol1"⟩).2 ⟨"team-b", "vol1"⟩).1 =
      (⟨false, 2 * Second⟩, none) ∧
    (Reconcile (Reconcile invalidWorld ⟨"team-a", "vol1"⟩).2
      ⟨"team-b", "vol1"⟩).2.backOffDuration "vol1" = some (4 * Second) := by
  decide

/-- Claim C11 (not-found on delete is success).  In every execution of
`Reconcile` in which a claim delete or a volume delete returns not-found:

* a not-found claim delete is directly followed by the delete of the volume
  the claim is bound to;
* a not-found volume delete is directly followed by the status update that
  submits `unregistered = true` with an empty error for the stored resource;
* when that status update succeeds, `Reconcile` returns the empty result with
  a nil error, the stored status is `unregistered = true` with an empty error
  and the key is absent from the back-off map;
* the execution ends as every execution does that issues the same calls with
  the same outcomes except that deletes that returned not-found in one
  succeeded in the other, started with the same stored resource and the same
  stored delay: same Go result, same stored resource, same stored delay,
  whatever the outcome of the later calls. -/
theorem Reconcile_delete_not_found (w : World) (request : NamespacedName)
    (calls : List Entry) (c : Call) (err : GoError)
    (htrace : (Reconcile w request).2.trace = w.trace ++ calls)
    (hmem : ⟨c, some err⟩ ∈ calls) (hdel : c.isDelete = true)
    (hnf : IsNotFound err = true) :
    (∀ ns n, c = .deleteClaim ns n →
      ∃ pre pvName e2 rest,
        calls = pre ++ ⟨c, some err⟩ :: ⟨.deleteVolume pvName, e2⟩ :: rest ∧
        w.claims (ns, n) = some pvName) ∧
    (∀ n, c = .deleteVolume n →
      ∃ pre spec status s rest,
        calls = pre ++ ⟨c, some err⟩ ::
          ⟨.updateInstance ⟨request.Namespace, request.Name, spec, ⟨true, ""⟩⟩, s⟩ :: rest ∧
        w.instances (request.Namespace, request.Name) = some (spec, status)) ∧
    (∀ inst, ⟨.updateInstance inst, none⟩ ∈ calls → inst.Status = ⟨true, ""⟩ →
      (Reconcile w request).1 = (Result.empty, none) ∧
      (Reconcile w request).2.instances (request.Namespace, request.Name) =
        some (inst.Spec, ⟨true, ""⟩) ∧
      (Reconcile w request).2.backOffDuration request.Name = none) ∧
    (∀ (w' : World) (calls' : List Entry),
      (Reconcile w' request).2.trace = w'.trace ++ calls' →
      calls'.map asSuccessfulDelete = calls.map asSuccessfulDelete →
      w'.backOffDuration request.Name = w.backOffDuration request.Name →
      w'.instances (request.Namespace, request.Name) =
        w.instances (request.Namespace, request.Name) →
      (Reconcile w' request).1 = (Reconcile w request).1 ∧
      (Reconcile w' request).2.instances (request.Namespace, request.Name) =
        (Reconcile w request).2.instances (request.Namespace, request.Name) ∧
      (Reconcile w' request).2.backOffDuration request.Name =
        (Reconcile w request).2.backOffDuration request.Name) := by
  have hrel : ∀ (w' : World) (calls' : List Entry),
      (Reconcile w' request).2.trace = w'.trace ++ calls' →
      calls'.map asSuccessfulDelete = calls.map asSuccessfulDelete →
      w'.backOffDuration request.Name = w.backOffDuration request.Name →
      w'.instances (request.Namespace, request.Name) =
        w.instances (request.Namespace, request.Name) →
      (Reconcile w' request).1 = (Reconcile w request).1 ∧
      (Reconcile w' request).2.instances (request.Namespace, request.Name) =
        (Reconcile w request).2.instances (request.Namespace, request.Name) ∧
      (Reconcile w' request).2.backOffDuration request.Name =
        (Reconcile w request).2.backOffDuration request.Name := by
    intro w' calls' htrace' hsame hd hi
    have h1 := Reconcile_outcomeOfLast w request calls htrace
    have h2 := Reconcile_outcomeOfLast w' request calls' htrace'
    rw [hsame, hd, hi, ← h1] at h2
    simp only [Prod.mk.injEq] at h2
    exact h2
  obtain ⟨inst, pvName, ups, e1, e2, rest, hshape, hclaim, hwhich⟩ :=
    not_found_delete_shape w request calls c err htrace hmem hdel hnf
  refine ⟨?_, ?_, fun inst hin hst => success_update_outcome w request calls inst htrace hin hst,
    hrel⟩
  · intro ns n hc
    rcases hwhich with ⟨hc1, he1⟩ | ⟨hc2, -⟩
    · rw [hc] at hc1
      cases hc1
      exact ⟨_, pvName, e2, rest, by rw [hshape, he1, hc], hclaim⟩
    · rw [hc] at hc2
      cases hc2
  · intro n hc
    rcases hwhich with ⟨hc1, -⟩ | ⟨hc2, he2, hns, hname, hstore, s, rest1, hrest⟩
    · rw [hc] at hc1
      cases hc1
    · refine ⟨(opening request inst.Spec.PvcName pvName ++ ups ++
          [⟨.updateVolume ⟨pvName, .Retain⟩, none⟩]) ++
          [⟨.deleteClaim request.Namespace inst.Spec.PvcName, e1⟩],
        inst.Spec, inst.Status, s, rest1, ?_, hstore⟩
      rw [hshape, hrest, he2, hc2, ← hns, ← hname]
      simp

/-- Witness of claim C11: a run of the example scenario in which the retain
update first hits a conflict and both deletes return not-found reaches the
terminal state; and the run with not-found on both deletes ends as the run in
which they succeed. -/
theorem Reconcile_delete_not_found_witness :
    (Reconcile conflictThenNotFoundWorld exampleKey).1 = (Result.empty, none) ∧
      (Reconcile conflictThenNotFoundWorld exampleKey).2.instances ("team-a", "vol1") =
        some (⟨"pvc1"⟩, ⟨true, ""⟩) ∧
      (Reconcile conflictThenNotFoundWorld exampleKey).2.backOffDuration "vol1" = none ∧
      (Reconcile exampleWorld exampleKey).1 = (Reconcile notFoundDeleteWorld exampleKey).1 ∧
      (Reconcile exampleWorld exampleKey).2.instances ("team-a", "vol1") =
        (Reconcile notFoundDeleteWorld exampleKey).2.instances ("team-a", "vol1") ∧
      (Reconcile exampleWorld exampleKey).2.backOffDuration "vol1" =
        (Reconcile notFoundDeleteWorld exampleKey).2.backOffDuration "vol1" :=
  have h1 := (Reconcile_delete_not_found conflictThenNotFoundWorld exampleKey
    (opening exampleKey "pvc1" "pv-123" ++
      [⟨.updateVolume ⟨"pv-123", .Retain⟩, some (.conflict "conflict")⟩,
       ⟨.updateVolume ⟨"pv-123", .Retain⟩, none⟩,
       ⟨.deleteClaim "team-a" "pvc1", some (.notFound notFoundMsg)⟩,
       ⟨.deleteVolume "pv-123", some (.notFound notFoundMsg)⟩,
       ⟨.updateInstance ⟨"team-a", "vol1", ⟨"pvc1"⟩, ⟨true, ""⟩⟩, none⟩])
    (.deleteClaim "team-a" "pvc1") (.notFound notFoundMsg)
    (by decide) (by decide) (by decide) (by decide)).2.2.1
      ⟨"team-a", "vol1", ⟨"pvc1"⟩, ⟨true, ""⟩⟩ (by decide) rfl
  have h2 := (Reconcile_delete_not_found notFoundDeleteWorld exampleKey
    (opening exampleKey "pvc1" "pv-123" ++
      [⟨.updateVolume ⟨"pv-123", .Retain⟩, none⟩,
       ⟨.deleteClaim "team-a" "pvc1", some (.notFound notFoundMsg)⟩,
       ⟨.deleteVolume "pv-123", some (.notFound notFoundMsg)⟩,
       ⟨.updateInstance ⟨"team-a", "vol1", ⟨"pvc1"⟩, ⟨true, ""⟩⟩, none⟩])
    (.deleteClaim "team-a" "pvc1") (.notFound notFoundMsg)
    (by decide) (by decide) (by decide) (by decide)).2.2.2 exampleWorld
      (opening exampleKey "pvc1" "pv-123" ++
        [⟨.updateVolume ⟨"pv-123", .Retain⟩, none⟩,
         ⟨.deleteClaim "team-a" "pvc1", none⟩, ⟨.deleteVolume "pv-123", none⟩,
         ⟨.updateInstance ⟨"team-a", "vol1", ⟨"pvc1"⟩, ⟨true, ""⟩⟩, none⟩])
      (by decide) (by decide) rfl rfl
  ⟨h1.1, h1.2.1, h1.2.2, h2.1, h2.2.1, h2.2.2⟩

/-- Claim C13 at its failing input.  In the example scenario the status update
that marks success fails once.  `setInstanceError` then submits the instance
that `setInstanceSuccess` already changed: a status with `unregistered = true`
and the error `Failed to update CnsUnregistered instance with error: timeout`.
That update succeeds, so this status is stored; `Reconcile` asks for a requeue
after one second, and the next reconciliation sees `unregistered = true`,
returns at once and leaves the error in place. -/
theorem failed_success_update_submits_unregistered_with_error :
    (Reconcile statusUpdateFailsWorld exampleKey).2.trace =
        opening exampleKey "pvc1" "pv-123" ++
          [⟨.updateVolume ⟨"pv-123", .Retain⟩, none⟩,
           ⟨.deleteClaim "team-a" "pvc1", none⟩, ⟨.deleteVolume "pv-123", none⟩,
           ⟨.updateInstance ⟨"team-a", "vol1", ⟨"pvc1"⟩, ⟨true, ""⟩⟩,
            some (.other "timeout")⟩,
           ⟨.updateInstance ⟨"team-a", "vol1", ⟨"pvc1"⟩,
              ⟨true, "Failed to update CnsUnregistered instance with error: timeout"⟩⟩,
            none⟩] ∧
      (Reconcile statusUpdateFailsWorld exampleKey).1 = (⟨false, Second⟩, none) ∧
      (Reconcile statusUpdateFailsWorld exampleKey).2.instances ("team-a", "vol1") =
        some (⟨"pvc1"⟩,
          ⟨true, "Failed to update CnsUnregistered instance with error: timeout"⟩) ∧
      (Reconcile (Reconcile statusUpdateFailsWorld exampleKey).2 exampleKey).1 =
        (Result.empty, none) ∧
      (Reconcile (Reconcile statusUpdateFailsWorld exampleKey).2 exampleKey).2.instances
          ("team-a", "vol1") =
        some (⟨"pvc1"⟩,
          ⟨true, "Failed to update CnsUnregistered instance with error: timeout"⟩) := by
  decide

end UnregisterVolume

namespace AdmissionHandler

theorem migrationParamsLoop_spec (unsupported : parameterSet) (params : List (String × String)) :
    ((∃ p ∈ params, unsupported.Has p.1 = true) →
      migrationParamsLoop unsupported params = (false, some ⟨"", migrationParamErrorMessage⟩)) ∧
    ((¬ ∃ p ∈ params, unsupported.Has p.1 = true) →
      migrationParamsLoop unsupported params = (true, none)) := by
  induction params with
  | nil => simp [migrationParamsLoop]
  | cons p rest ih =>
    obtain ⟨param, value⟩ := p
    by_cases h : unsupported.Has param = true
    · simp [migrationParamsLoop, h]
    · obtain ⟨ih1, ih2⟩ := ih
      constructor
      · rintro ⟨q, hq, hhas⟩
        rcases List.mem_cons.1 hq with rfl | hq
        · exact absurd hhas h
        · simp only [migrationParamsLoop, h, if_false]
          exact ih1 ⟨q, hq, hhas⟩
      · intro hno
        simp only [migrationParamsLoop, h, if_false]
        exact ih2 (fun ⟨q, hq, hhas⟩ => hno ⟨q, List.mem_cons_of_mem _ hq, hhas⟩)

theorem Has_iff_mem (paramSet : parameterSet) (paramName : String) :
    paramSet.Has paramName = true ↔ paramName ∈ paramSet.keys := by
  simp [parameterSet.Has]

theorem Has_unSupportedParameters (common : MigrationParamNames) (paramName : String) :
    (unSupportedParameters common).Has paramName = true ↔
      paramName ∈ [common.CSIMigrationParams, common.DiskFormatMigrationParam,
        common.HostFailuresToTolerateMigrationParam, common.ForceProvisioningMigrationParam,
        common.CacheReservationMigrationParam, common.DiskstripesMigrationParam,
        common.ObjectspacereservationMigrationParam, common.IopslimitMigrationParam] := by
  rw [Has_iff_mem]
  rfl

/-- Claim C12 (the `validateStorageClass` decision).  For every admission
review with a request: a request of a kind other than `StorageClass` is
allowed with no result; for a request of kind `StorageClass` whose object
deserializes to `sc`, the response is denied exactly when the provisioner is
`kubernetes.io/vsphere-volume` and `AllowVolumeExpansion` is set to true, or
the provisioner is `csi.vsphere.vmware.com` and some parameter key is one of
the eight migration parameter names of `unSupportedParameters`; the denial is
the response with `volumeExpansionErrorMessage` as its reason in the first
case and with `migrationParamErrorMessage` in the second, and an allowed
response carries no result. -/
theorem validateStorageClass_decision (common : MigrationParamNames)
    (unmarshal : String → Except String StorageClass) (ar : AdmissionReview)
    (req : AdmissionRequest) (hreq : ar.Request = some req) :
    (req.Kind ≠ "StorageClass" →
      validateStorageClass common unmarshal ar = some ⟨true, none⟩) ∧
    (∀ sc, req.Kind = "StorageClass" → unmarshal req.Raw = .ok sc →
      ∃ resp, validateStorageClass common unmarshal ar = some resp ∧
        (resp.Allowed = false ↔
          (sc.Provisioner = "kubernetes.io/vsphere-volume" ∧
            sc.AllowVolumeExpansion = some true) ∨
          (sc.Provisioner = "csi.vsphere.vmware.com" ∧
            ∃ p ∈ sc.Parameters,
              p.1 ∈ [common.CSIMigrationParams, common.DiskFormatMigrationParam,
                common.HostFailuresToTolerateMigrationParam,
                common.ForceProvisioningMigrationParam,
                common.CacheReservationMigrationParam, common.DiskstripesMigrationParam,
                common.ObjectspacereservationMigrationParam,
                common.IopslimitMigrationParam])) ∧
        (sc.Provisioner = "kubernetes.io/vsphere-volume" ∧
            sc.AllowVolumeExpansion = some true →
          resp = ⟨false, some ⟨"", volumeExpansionErrorMessage⟩⟩) ∧
        (sc.Provisioner = "csi.vsphere.vmware.com" ∧
            (∃ p ∈ sc.Parameters,
              p.1 ∈ [common.CSIMigrationParams, common.DiskFormatMigrationParam,
                common.HostFailuresToTolerateMigrationParam,
                common.ForceProvisioningMigrationParam,
                common.CacheReservationMigrationParam, common.DiskstripesMigrationParam,
                common.ObjectspacereservationMigrationParam,
                common.IopslimitMigrationParam]) →
          resp = ⟨false, some ⟨"", migrationParamErrorMessage⟩⟩) ∧
        (resp.Allowed = true → resp.Result = none)) := by
  constructor
  · intro hk
    simp [validateStorageClass, hreq, hk]
  · intro sc hk hun
    obtain ⟨hl1, hl2⟩ := migrationParamsLoop_spec (unSupportedParameters common) sc.Parameters
    have hmem : (∃ p ∈ sc.Parameters, (unSupportedParameters common).Has p.1 = true) ↔
        ∃ p ∈ sc.Parameters,
          p.1 ∈ [common.CSIMigrationParams, common.DiskFormatMigrationParam,
            common.HostFailuresToTolerateMigrationParam,
            common.ForceProvisioningMigrationParam,
            common.CacheReservationMigrationParam, common.DiskstripesMigrationParam,
            common.ObjectspacereservationMigrationParam,
            common.IopslimitMigrationParam] :=
      ⟨fun ⟨p, hp, h⟩ => ⟨p, hp, (Has_unSupportedParameters common p.1).1 h⟩,
        fun ⟨p, hp, h⟩ => ⟨p, hp, (Has_unSupportedParameters common p.1).2 h⟩⟩
    rw [hmem] at hl1 hl2
    by_cases h1 : sc.Provisioner = "kubernetes.io/vsphere-volume"
    · have hne : sc.Provisioner ≠ "csi.vsphere.vmware.com" := by rw [h1]; decide
      by_cases h2 : sc.AllowVolumeExpansion = some true
      · refine ⟨⟨false, some ⟨"", volumeExpansionErrorMessage⟩⟩, ?_, ?_⟩
        · simp [validateStorageClass, hreq, hk, hun, h1, h2]
        · simp [h1, h2]
      · refine ⟨⟨true, none⟩, ?_, ?_⟩
        · simp [validateStorageClass, hreq, hk, hun, h1, h2]
        · simp [h1, h2]
    · by_cases h3 : sc.Provisioner = "csi.vsphere.vmware.com"
      · have hne : ("csi.vsphere.vmware.com" : String) ≠ "kubernetes.io/vsphere-volume" := by
          decide
        by_cases h4 : ∃ p ∈ sc.Parameters,
            p.1 ∈ [common.CSIMigrationParams, common.DiskFormatMigrationParam,
              common.HostFailuresToTolerateMigrationParam,
              common.ForceProvisioningMigrationParam,
              common.CacheReservationMigrationParam, common.DiskstripesMigrationParam,
              common.ObjectspacereservationMigrationParam,
              common.IopslimitMigrationParam]
        · refine ⟨⟨false, some ⟨"", migrationParamErrorMessage⟩⟩, ?_, ?_⟩
          · simp [validateStorageClass, hreq, hk, hun, h3, hl1 h4]
          · refine ⟨⟨fun _ => Or.inr ⟨h3, h4⟩, fun _ => rfl⟩, ?_, fun _ => rfl, ?_⟩
            · rintro ⟨hc, -⟩
              rw [h3] at hc
              exact absurd hc hne
            · intro hc
              cases hc
        · refine ⟨⟨true, none⟩, ?_, ?_⟩
          · simp [validateStorageClass, hreq, hk, hun, h3, hl2 h4]
          · refine ⟨⟨(fun hc => by cases hc), ?_⟩, ?_, ?_, fun _ => rfl⟩
            · rintro (⟨hc, -⟩ | ⟨-, hc⟩)
              · rw [h3] at hc
                exact absurd hc hne
              · exact absurd hc h4
            · rintro ⟨hc, -⟩
              rw [h3] at hc
              exact absurd hc hne
            · rintro ⟨-, hc⟩
              exact absurd hc h4
      · refine ⟨⟨true, none⟩, ?_, ?_⟩
        · simp [validateStorageClass, hreq, hk, hun, h1, h3]
        · simp [h1, h3]

/-- Witness of claim C12: a CSI storage class with the parameter
`diskformat-migrationparam` is denied with `migrationParamErrorMessage`, and
a CSI storage class with only `storagepolicyname` is allowed. -/
theorem validateStorageClass_decision_witness :
    validateStorageClass exampleParamNames (fun _ => .ok exampleStorageClass)
        ⟨some exampleRequest⟩ = some ⟨false, some ⟨"", migrationParamErrorMessage⟩⟩ ∧
      (validateStorageClass exampleParamNames (fun _ => .ok plainStorageClass)
        ⟨some exampleRequest⟩).map AdmissionResponse.Allowed = some true := by
  obtain ⟨resp, h1, -, -, h4, -⟩ :=
    (validateStorageClass_decision exampleParamNames (fun _ => .ok exampleStorageClass)
      ⟨some exampleRequest⟩ exampleRequest rfl).2 exampleStorageClass rfl rfl
  obtain ⟨resp2, k1, k2, -⟩ :=
    (validateStorageClass_decision exampleParamNames (fun _ => .ok plainStorageClass)
      ⟨some exampleRequest⟩ exampleRequest rfl).2 plainStorageClass rfl rfl
  have hbad : exampleStorageClass.Provisioner = "csi.vsphere.vmware.com" ∧
      ∃ p ∈ exampleStorageClass.Parameters,
        p.1 ∈ [exampleParamNames.CSIMigrationParams,
          exampleParamNames.DiskFormatMigrationParam,
          exampleParamNames.HostFailuresToTolerateMigrationParam,
          exampleParamNames.ForceProvisioningMigrationParam,
          exampleParamNames.CacheReservationMigrationParam,
          exampleParamNames.DiskstripesMigrationParam,
          exampleParamNames.ObjectspacereservationMigrationParam,
          exampleParamNames.IopslimitMigrationParam] :=
    ⟨rfl, ("diskformat-migrationparam", "thin"), by decide, by decide⟩
  have hgood : resp2.Allowed = true := by
    cases hr : resp2.Allowed with
    | true => rfl
    | false =>
      rcases k2.1 hr with ⟨hc, -⟩ | ⟨-, q, hq, hin⟩
      · exact absurd hc (by decide)
      · simp only [plainStorageClass, List.mem_singleton] at hq
        subst hq
        exact absurd hin (by decide)
  rw [h1, k1]
  exact ⟨congrArg some (h4 hbad), congrArg some hgood⟩

end AdmissionHandler
